import Mathlib

/-!
Shallow embedding of the download orchestration subsystem of the
tiktok-downloader backend (Rust), together with proofs of the spec claims.

Strings from the Rust side are modelled as `List Char` where character-level
scanning matters (URL validation, username extraction, date parsing) and as
`String` for opaque payload fields (titles, labels, URLs carried around).
-/

namespace TikTokDl

/-! ## URL validator (src/utils/url_validator.rs) -/

/-- The character class `[A-Za-z0-9_.]` used by the profile and username
regexes in `url_validator.rs`. -/
def isClassChar (c : Char) : Bool :=
  (('A' ≤ c && c ≤ 'Z') || ('a' ≤ c && c ≤ 'z') || ('0' ≤ c && c ≤ '9')
    || c = '_' || c = '.')

/-- The digit class `\d` (ASCII digits, as in the `regex` crate default). -/
def isDigitChar (c : Char) : Bool := '0' ≤ c && c ≤ '9'

/-- Strip a literal prefix: `some rest` when `lit` is a prefix of `s`. -/
def stripLit : List Char → List Char → Option (List Char)
  | [], s => some s
  | _ :: _, [] => none
  | l :: ls, c :: cs => if c = l then stripLit ls cs else none

/-- Match of the leading `https?://` of every pattern: both alternatives of
the optional `s` are tried, exactly as the regex engine does. -/
def stripScheme (s : List Char) : Option (List Char) :=
  match stripLit ("https://".toList) s with
  | some r => some r
  | none => stripLit ("http://".toList) s

/-- `(www\.)?X`: the optional group is tried, then skipped, exactly as the
regex alternation does. -/
def matchOptWww (tail : List Char → Bool) (s : List Char) : Bool :=
  (match stripLit ("www.".toList) s with
   | some r => tail r
   | none => false) || tail s

/-- Tail of pattern `^https?://(www\.)?tiktok\.com/@[^/]+/video/\d+` after
`tiktok.com/@`: one-or-more non-slash chars, the literal `/video/`, then at
least one digit (the match need not cover the whole string: `is_match`). -/
def videoTail (s : List Char) : Bool :=
  let uname := s.takeWhile (fun c => !(c = '/'))
  let rest := s.dropWhile (fun c => !(c = '/'))
  !uname.isEmpty &&
    (match stripLit ("/video/".toList) rest with
     | some r =>
       match r with
       | [] => false
       | c :: _ => isDigitChar c
     | none => false)

/-- Pattern 1 of `is_valid_tiktok_url`:
`^https?://(www\.)?tiktok\.com/@[^/]+/video/\d+`. -/
def matchVideoPattern (s : List Char) : Bool :=
  match stripScheme s with
  | some r =>
    matchOptWww
      (fun t =>
        match stripLit ("tiktok.com/@".toList) t with
        | some rest => videoTail rest
        | none => false) r
  | none => false

/-- Pattern 2 of `is_valid_tiktok_url`:
`^https?://vm\.tiktok\.com/[A-Za-z0-9]+/?` — for `is_match` it suffices that
one alphanumeric char follows the literal prefix. -/
def matchVmPattern (s : List Char) : Bool :=
  match stripScheme s with
  | some r =>
    (match stripLit ("vm.tiktok.com/".toList) r with
     | some rest =>
       match rest with
       | [] => false
       | c :: _ => c.isAlphanum
     | none => false)
  | none => false

/-- Pattern 3 of `is_valid_tiktok_url`:
`^https?://(www\.)?tiktok\.com/t/[A-Za-z0-9]+/?`. -/
def matchTPattern (s : List Char) : Bool :=
  match stripScheme s with
  | some r =>
    matchOptWww
      (fun t =>
        match stripLit ("tiktok.com/t/".toList) t with
        | some rest =>
          match rest with
          | [] => false
          | c :: _ => c.isAlphanum
        | none => false) r
  | none => false

/-- Pattern 4 of `is_valid_tiktok_url`:
`^https?://m\.tiktok\.com/v/\d+\.html` — one-or-more digits then the literal
`.html`; the greedy `\d+` can only stop at the first non-digit, so the match
succeeds iff the digit run is non-empty and is followed by `.html`. -/
def matchMPattern (s : List Char) : Bool :=
  match stripScheme s with
  | some r =>
    (match stripLit ("m.tiktok.com/v/".toList) r with
     | some rest =>
       let ds := rest.takeWhile isDigitChar
       let after := rest.dropWhile isDigitChar
       !ds.isEmpty && (stripLit (".html".toList) after).isSome
     | none => false)
  | none => false

/-- Modelled boundary of the external `url` crate (a third-party collaborator,
not repository code): `Url::parse(url).is_ok()`.  Approximated as an
ASCII-letter scheme followed by `://` and a non-empty remainder.  Every claim
about the validators is insensitive to this definition because the same
string is passed through the same check in every code path. -/
def urlParseOk (s : List Char) : Bool :=
  let scheme := s.takeWhile (fun c => c.isAlpha)
  let rest := s.dropWhile (fun c => c.isAlpha)
  !scheme.isEmpty &&
    (match stripLit ("://".toList) rest with
     | some r => !r.isEmpty
     | none => false)

/-- `is_valid_tiktok_url` from `url_validator.rs`: URL-parse guard, then the
four patterns tried in order. -/
def isValidTiktokUrl (s : List Char) : Bool :=
  urlParseOk s &&
    (matchVideoPattern s || matchVmPattern s || matchTPattern s || matchMPattern s)

/-- Tail of profile pattern 1 `^https?://(www\.)?tiktok\.com/@[A-Za-z0-9_.]+/?`
after `tiktok.com/@`: for `is_match` it suffices that one class char follows
(the trailing `/?` is optional and the match need not span the string). -/
def profileTail1 (s : List Char) : Bool :=
  match s with
  | [] => false
  | c :: _ => isClassChar c

/-- Tail of profile pattern 2 `^https?://(www\.)?tiktok\.com/@[A-Za-z0-9_.]+$`
after `tiktok.com/@`: the whole remainder must be a non-empty run of class
chars (end-anchored). -/
def profileTail2 (s : List Char) : Bool :=
  !s.isEmpty && s.all isClassChar

/-- One profile pattern after the scheme: optional `www.`, the literal
`tiktok.com/@`, then the given tail matcher. -/
def matchProfileWith (tail : List Char → Bool) (s : List Char) : Bool :=
  match stripScheme s with
  | some r =>
    matchOptWww
      (fun t =>
        match stripLit ("tiktok.com/@".toList) t with
        | some rest => tail rest
        | none => false) r
  | none => false

/-- `is_valid_tiktok_profile_url` from `url_validator.rs`: URL-parse guard,
then the two profile patterns tried in order. -/
def isValidTiktokProfileUrl (s : List Char) : Bool :=
  urlParseOk s &&
    (matchProfileWith profileTail1 s || matchProfileWith profileTail2 s)

/-- The unanchored search for `@([A-Za-z0-9_.]+)`: find the first `@`
followed by at least one class char and return the maximal class-char run
after it (what `captures.get(1)` yields). -/
def findUsernameCapture : List Char → Option (List Char)
  | [] => none
  | c :: rest =>
    if c = '@' then
      let u := rest.takeWhile isClassChar
      if u.isEmpty then findUsernameCapture rest else some u
    else findUsernameCapture rest

/-- `extract_tiktok_username` from `url_validator.rs`: profile-validity guard,
then the capture search. -/
def extractTiktokUsername (s : List Char) : Option (List Char) :=
  if isValidTiktokProfileUrl s then findUsernameCapture s else none

/-! ## Thumbnail selection (tiktok_service.rs, `extract_best_thumbnail_url`) -/

/-- `YtDlpThumbnail` from `tiktok_service.rs`. -/
structure YtDlpThumbnail where
  id : Option (List Char)
  url : String
  height : Option Nat
  width : Option Nat
deriving DecidableEq, Repr

/-- Substring test, modelling Rust `str::contains` with a string pattern. -/
def containsSub (needle hay : List Char) : Bool :=
  match hay with
  | [] => (stripLit needle []).isSome
  | _ :: rest => (stripLit needle hay).isSome || containsSub needle rest

/-- The cover test from the `find` closure:
`t.id.as_ref().map(|id| id.contains("cover")).unwrap_or(false)`. -/
def isCoverThumb (t : YtDlpThumbnail) : Bool :=
  match t.id with
  | some i => containsSub ("cover".toList) i
  | none => false

/-- The `max_by_key` key: `t.height.unwrap_or(0) * t.width.unwrap_or(0)`. -/
def thumbArea (t : YtDlpThumbnail) : Nat :=
  t.height.getD 0 * t.width.getD 0

/-- Rust `Iterator::max_by_key`: the LAST maximal element, or `none` on an
empty iterator. -/
def maxByArea (l : List YtDlpThumbnail) : Option YtDlpThumbnail :=
  l.foldl
    (fun best t =>
      match best with
      | none => some t
      | some b => if thumbArea b ≤ thumbArea t then some t else some b)
    none

/-- `TikTokService::extract_best_thumbnail_url`: cover id, then maximal area,
then first element, then the legacy single-thumbnail fallback. -/
def extractBestThumbnailUrl (thumbnails : Option (List YtDlpThumbnail))
    (fallback : Option String) : Option String :=
  let fromFallback : Option String :=
    match fallback with
    | some s => some s
    | none => none
  match thumbnails with
  | some arr =>
    if !arr.isEmpty then
      match arr.find? isCoverThumb with
      | some cover => some cover.url
      | none =>
        match maxByArea arr with
        | some best => some best.url
        | none =>
          match arr.head? with
          | some first => some first.url
          | none => fromFallback
    else fromFallback
  | none => fromFallback

/-! ## Format list parsing (tiktok_service.rs, `parse_available_formats`) -/

/-- `YtDlpFormat` from `tiktok_service.rs`, restricted to the fields read by
the embedded functions (the unused `quality : Option<f64>`, `url` and
`acodec` fields are omitted; floating point is not modelled). -/
structure YtDlpFormat where
  format_id : String
  ext : String
  height : Option Nat
  width : Option Nat
  filesize : Option Nat
  vcodec : Option String
  format_note : Option String
deriving DecidableEq, Repr

/-- `FormatOption` from `models/mod.rs`. -/
structure FormatOption where
  format_id : String
  label : String
  quality : String
  ext : String
  filesize : Option Nat
  height : Option Nat
  width : Option Nat
deriving DecidableEq, Repr

/-- The filter in the loop of `parse_available_formats`: mp4, height present,
not video-codec-none, height at least 240. -/
def keepFormat (f : YtDlpFormat) : Bool :=
  f.ext = "mp4" && f.height.isSome && !(f.vcodec = some "none")
    && decide (240 ≤ f.height.getD 0)

/-- The quality label ladder from `parse_available_formats`. -/
def qualityLabel (height : Nat) : String :=
  if 1080 ≤ height then "1080p (HD)"
  else if 720 ≤ height then "720p (HD)"
  else if 480 ≤ height then "480p"
  else "360p"

/-- Construction of one `FormatOption` from a kept `YtDlpFormat`. -/
def toFormatOption (f : YtDlpFormat) : FormatOption :=
  let height := f.height.getD 0
  let label :=
    match f.format_note with
    | some note => qualityLabel height ++ " - " ++ note
    | none => qualityLabel height
  { format_id := f.format_id
    label := label
    quality := toString height ++ "p"
    ext := f.ext
    filesize := f.filesize
    height := f.height
    width := f.width }

/-- The sort key of the `sort_by` comparator: `height.unwrap_or(0)`. -/
def hKey (f : FormatOption) : Nat := f.height.getD 0

/-- One step of a stable descending insertion sort on `hKey` (the element is
placed before the first element whose key it meets or exceeds, so the
original order of equal keys is preserved, as Rust's stable `sort_by`
guarantees). -/
def insertDescH (x : FormatOption) : List FormatOption → List FormatOption
  | [] => [x]
  | y :: ys => if hKey y ≤ hKey x then x :: y :: ys else y :: insertDescH x ys

/-- Stable sort by descending `hKey`, modelling
`sort_by(|a, b| b.height.unwrap_or(0).cmp(&a.height.unwrap_or(0)))`. -/
def sortDescH (l : List FormatOption) : List FormatOption :=
  l.foldr insertDescH []

/-- Inner loop of Rust `Vec::dedup_by(|a, b| a.height == b.height)`: drop
each element whose `height` equals that of the last kept element. -/
def dedupHGo (prev : FormatOption) : List FormatOption → List FormatOption
  | [] => []
  | y :: ys =>
    if y.height = prev.height then dedupHGo prev ys else y :: dedupHGo y ys

/-- Rust `Vec::dedup_by(|a, b| a.height == b.height)`: remove consecutive
elements with equal `height`, keeping the first of each run. -/
def dedupH : List FormatOption → List FormatOption
  | [] => []
  | x :: xs => x :: dedupHGo x xs

/-- The synthetic fallback entry pushed when no format qualifies. -/
def fallbackFormat : FormatOption :=
  { format_id := "best"
    label := "Best Available"
    quality := "auto"
    ext := "mp4"
    filesize := none
    height := none
    width := none }

/-- `TikTokService::parse_available_formats`.  Note the early return: an
absent (`none`) format list returns the empty list WITHOUT the fallback
entry; the fallback is only pushed when a present list yields no qualifying
entry after filter/sort/dedup/truncate. -/
def parseAvailableFormats (formats : Option (List YtDlpFormat)) :
    List FormatOption :=
  match formats with
  | none => []
  | some fs =>
    let kept := fs.filterMap
      (fun f => if keepFormat f then some (toFormatOption f) else none)
    let sorted := sortDescH kept
    let deduped := dedupH sorted
    let truncated := deduped.take 5
    if truncated.isEmpty then [fallbackFormat] else truncated

/-! ## Upload-date handling (tiktok_service.rs, `convert_ytdlp_to_video_info`) -/

/-- Outcome of the `created_at` computation: either a concrete midnight-UTC
calendar date, or the `Utc::now()` fallback. -/
inductive CreatedAt where
  | date (y : Int) (m d : Nat)
  | now
deriving DecidableEq, Repr

/-- Digit-run accumulator shared by the integer parsers; `none` before the
first digit, `some v` after (Rust `str::parse` fails on an empty digit run
and on any non-digit character). -/
def parseDigitsAcc : List Char → Option Nat → Option Nat
  | [], acc => acc
  | c :: cs, acc =>
    if isDigitChar c then
      parseDigitsAcc cs (some (acc.getD 0 * 10 + (c.toNat - 48)))
    else none

/-- Rust `str::parse::<u32>()` (overflow is irrelevant at the 2-character
call sites): optional leading `+`, then one-or-more digits. -/
def parseU32 (s : List Char) : Option Nat :=
  match s with
  | [] => none
  | c :: rest =>
    if c = '+' then parseDigitsAcc rest none
    else parseDigitsAcc (c :: rest) none

/-- Rust `str::parse::<i32>()` (overflow is irrelevant at the 4-character
call site): optional leading sign, then one-or-more digits. -/
def parseI32 (s : List Char) : Option Int :=
  match s with
  | [] => none
  | c :: rest =>
    if c = '+' then (parseDigitsAcc rest none).map (fun n => (n : Int))
    else if c = '-' then (parseDigitsAcc rest none).map (fun n => -(n : Int))
    else (parseDigitsAcc (c :: rest) none).map (fun n => (n : Int))

/-- Gregorian leap year, as implemented by chrono. -/
def isLeapYear (y : Int) : Bool :=
  (y % 4 = 0 && !(y % 100 = 0)) || y % 400 = 0

/-- Days in a month of the proleptic Gregorian calendar. -/
def daysInMonth (y : Int) (m : Nat) : Nat :=
  if m = 1 || m = 3 || m = 5 || m = 7 || m = 8 || m = 10 || m = 12 then 31
  else if m = 4 || m = 6 || m = 9 || m = 11 then 30
  else if m = 2 then (if isLeapYear y then 29 else 28)
  else 0

/-- chrono `NaiveDate::from_ymd_opt` followed by `and_hms_opt(0,0,0)` (the
latter never fails on 0/0/0); the year range limit of chrono is far beyond
what four parsed characters can produce, so validity is purely calendrical. -/
def fromYmdOpt (y : Int) (m d : Nat) : Option CreatedAt :=
  if 1 ≤ m && m ≤ 12 && 1 ≤ d && d ≤ daysInMonth y m then
    some (CreatedAt.date y m d)
  else none

/-- The `created_at` computation in `convert_ytdlp_to_video_info`: on an
8-character upload date, slice `[0..4]`, `[4..6]`, `[6..8]`, parse each with
per-component defaults `2024`, `1`, `1`, build the date, and fall back to
`Utc::now()` only when the resulting triple is not a valid date; on any other
length, or an absent date, fall back to `Utc::now()` directly.  Strings are
byte/char lists (the claims concern ASCII inputs, where Rust byte length and
char count agree). -/
def parseCreatedAt (uploadDate : Option (List Char)) : CreatedAt :=
  match uploadDate with
  | none => CreatedAt.now
  | some s =>
    if s.length = 8 then
      let y := (parseI32 (s.take 4)).getD 2024
      let m := (parseU32 ((s.drop 4).take 2)).getD 1
      let d := (parseU32 (s.drop 6)).getD 1
      (fromYmdOpt y m d).getD CreatedAt.now
    else CreatedAt.now

/-! ## Process Stream Adapter (tiktok_service.rs, `VideoStream`)

`poll_next` is driven by two external observations per pull: the result of
`child.try_wait()` and the result of one bounded `poll_read` on the stdout
pipe.  `try_wait` is modelled as `Option Bool`: `some b` means the process
has exited and `b` is `exit_status.success()`; `none` covers both a still
running child and a `try_wait` error (the code's `if let Ok(Some(..))`
treats both alike). -/

/-- Result of one `poll_read` on the stdout pipe: `ok data` is a successful
read that filled `data` (empty = EOF), `ioError` a pipe read error,
`pending` a not-ready poll. -/
inductive ReadResult where
  | ok (data : List Nat)
  | ioError (msg : String)
  | pending
deriving DecidableEq, Repr

/-- One yielded stream item: a byte chunk or an error. -/
inductive StreamItem where
  | chunk (data : List Nat)
  | err (msg : String)
deriving DecidableEq, Repr

/-- Outcome of one `poll_next` call: `ready none` is end-of-stream. -/
inductive PollOutcome where
  | ready (item : Option StreamItem)
  | pending
deriving DecidableEq, Repr

/-- Observable side effects of the adapter relevant to the teardown claim:
log lines and the `start_kill` signal to the child process. -/
inductive Effect where
  | logError
  | logInfo
  | logWarn
  | startKill
deriving DecidableEq, Repr

/-- The error message built when the child exited unsuccessfully. -/
def procFailMsg : String := "yt-dlp process failed"

/-- The fixed read bound: `vec![0u8; 8192]`. -/
def chunkCap : Nat := 8192

/-- One bounded read from the pipe: fills at most `chunkCap` bytes of what
the pipe currently holds. -/
def readFill (avail : List Nat) : List Nat := avail.take chunkCap

/-- `VideoStream::poll_next` with its effects.  The exit status is checked
first; a failure status yields the error item at once, regardless of the
pipe's read result.  No branch signals the child. -/
def pollNextFx (tryWait : Option Bool) (rd : ReadResult) :
    PollOutcome × List Effect :=
  if tryWait = some false then
    (PollOutcome.ready (some (StreamItem.err procFailMsg)), [Effect.logError])
  else
    match rd with
    | ReadResult.ok data =>
      if data.isEmpty then (PollOutcome.ready none, [Effect.logInfo])
      else (PollOutcome.ready (some (StreamItem.chunk data)), [])
    | ReadResult.ioError e =>
      (PollOutcome.ready (some (StreamItem.err e)), [Effect.logError])
    | ReadResult.pending => (PollOutcome.pending, [])

/-- `impl Drop for VideoStream`: exactly one `start_kill` call; a kill
failure only adds a warning log. -/
def dropFx (killErr : Bool) : List Effect :=
  Effect.startKill :: (if killErr then [Effect.logWarn] else [])

/-- The effect trace of one complete stream lifetime: any sequence of polls
(the consumer may drain to EOF, stop at an error, or abandon mid-flight —
all three are just prefixes of polls), followed by the one drop that Rust
ownership guarantees runs exactly once when the stream value is released. -/
def streamLifecycleFx (polls : List (Option Bool × ReadResult))
    (killErr : Bool) : List Effect :=
  (polls.flatMap (fun p => (pollNextFx p.1 p.2).2)) ++ dropFx killErr

/-! ## Batch pipelines and public operations (tiktok_service.rs)

The external tool and the filesystem are oracles: every subprocess
invocation is recorded in a command trace and its outcome is drawn from the
environment.  Filesystem state tracks the per-request session directory and
its contents. -/

/-- A spawned subprocess, by the argument shape used in the code. -/
inductive Cmd where
  | versionProbe
  | metadataDump (url : List Char)
  | streamDownload (formatId : String) (url : List Char)
  | audioExtract (url : List Char)
  | flatListing (url : List Char)
  | fullListing (url : List Char)
  | bulkDownload (url : List Char)
  | videoDownload (url : List Char)
deriving DecidableEq, Repr

/-- The error taxonomy at the service boundary (each constructor is one
`anyhow!` site). -/
inductive ServiceError where
  | invalidInput
  | noVideosSelected
  | dependencyUnavailable
  | usernameExtraction
  | ioError (msg : String)
  | metadataFailed (msg : String)
  | jsonParseFailed (msg : String)
  | invalidFormat (formatId : String)
  | captureStdoutFailed
  | batchDownloadFailed (msg : String)
  | noVideosDownloaded
  | zipError (msg : String)
deriving DecidableEq, Repr

/-- Outcome of one `Command::output()` invocation: the `?` on the await can
fail (spawnErr), the tool can exit non-zero with stderr text, or exit zero
having written `produced` files into the session directory. -/
inductive InvokeOutcome where
  | spawnErr (msg : String)
  | exitNonZero (stderrMsg : String)
  | exitZero (produced : List (List Char))
deriving DecidableEq, Repr

/-- Filesystem state of one batch request. -/
structure FsState where
  sessionDirExists : Bool
  sessionFiles : List (List Char)
  zipWritten : Bool
deriving DecidableEq, Repr

/-- The state before the pipeline creates anything. -/
def fsInit : FsState :=
  { sessionDirExists := false, sessionFiles := [], zipWritten := false }

/-- Rust `Path::extension()` on a file name: the part after the final dot; a
single leading dot does not count as a separator. -/
def extOf (name : List Char) : Option (List Char) :=
  match name with
  | [] => none
  | c :: rest =>
    let body := if c = '.' then rest else name
    if body.contains '.' then
      some ((body.reverse.takeWhile (fun x => !(x = '.'))).reverse)
    else none

/-- The extension allow-list of the directory scan: `mp4`, `webm`, `mkv`. -/
def allowedExt (name : List Char) : Bool :=
  match extOf name with
  | some e =>
    e = ("mp4".toList) || e = ("webm".toList) || e = ("mkv".toList)
  | none => false

/-- `TikTokService::check_ytdlp_availability`: the PATH lookup spawns
nothing; the version probe is one spawn.  `probe = none` models an IO error
of `output().await`, `some b` the probe's exit success. -/
def checkYtdlpAvailability (installed : Bool) (probe : Option Bool) :
    Except ServiceError Unit × List Cmd :=
  if !installed then (Except.error ServiceError.dependencyUnavailable, [])
  else
    match probe with
    | none => (Except.error (ServiceError.ioError "probe"), [Cmd.versionProbe])
    | some false =>
      (Except.error ServiceError.dependencyUnavailable, [Cmd.versionProbe])
    | some true => (Except.ok (), [Cmd.versionProbe])

/-- `TikTokService::download_all_profile_videos`: one bulk invocation; a
non-zero exit fails the whole batch; on success the session directory is
scanned and filtered by the extension allow-list. -/
def downloadAllProfileVideos (outcome : InvokeOutcome) (url : List Char)
    (st : FsState) :
    Except ServiceError (List (List Char)) × FsState × List Cmd :=
  let tr := [Cmd.bulkDownload url]
  match outcome with
  | InvokeOutcome.spawnErr m => (Except.error (ServiceError.ioError m), st, tr)
  | InvokeOutcome.exitNonZero m =>
    (Except.error (ServiceError.batchDownloadFailed m), st, tr)
  | InvokeOutcome.exitZero produced =>
    let st1 := { st with sessionFiles := st.sessionFiles ++ produced }
    (Except.ok (st1.sessionFiles.filter allowedExt), st1, tr)

/-- The sequential loop of `TikTokService::download_selected_videos`: one
invocation per URL, in order; a non-zero exit is logged and skipped; an IO
error on `output().await` aborts through `?`. -/
def runSelectedLoop : List (List Char × InvokeOutcome) → FsState →
    Option ServiceError × FsState × List Cmd
  | [], st => (none, st, [])
  | (u, o) :: rest, st =>
    match o with
    | InvokeOutcome.spawnErr m =>
      (some (ServiceError.ioError m), st, [Cmd.videoDownload u])
    | InvokeOutcome.exitNonZero _ =>
      let (r, st1, tr) := runSelectedLoop rest st
      (r, st1, Cmd.videoDownload u :: tr)
    | InvokeOutcome.exitZero produced =>
      let (r, st1, tr) :=
        runSelectedLoop rest
          { st with sessionFiles := st.sessionFiles ++ produced }
      (r, st1, Cmd.videoDownload u :: tr)

/-- `TikTokService::download_selected_videos`: the loop, then the directory
scan filtered by the extension allow-list. -/
def downloadSelectedVideos (selected : List (List Char × InvokeOutcome))
    (st : FsState) :
    Except ServiceError (List (List Char)) × FsState × List Cmd :=
  match runSelectedLoop selected st with
  | (some e, st1, tr) => (Except.error e, st1, tr)
  | (none, st1, tr) =>
    (Except.ok (st1.sessionFiles.filter allowedExt), st1, tr)

/-- Outcome of `create_zip_archive`: the returned artifact size, or a
failure (file create, entry write, or the final metadata read). -/
inductive ZipOutcome where
  | ok (size : Nat)
  | err (msg : String)
deriving DecidableEq, Repr

/-- Environment oracle for one batch request. -/
structure BatchEnv where
  installed : Bool
  probe : Option Bool
  bulkOutcome : InvokeOutcome
  zipOutcome : ZipOutcome
deriving Repr

/-- `TikTokService::download_profile_as_zip`.  Control flow mirrors the
source: URL guard, availability, username extraction, session directory
creation, bulk download (`?` on failure — no cleanup), empty-set check
(direct return — no cleanup), zip build (`?` on failure — no cleanup),
then file cleanup and session directory removal on success only. -/
def downloadProfileAsZip (env : BatchEnv) (url : List Char) :
    Except ServiceError (List Char × Nat) × FsState × List Cmd :=
  if !isValidTiktokProfileUrl url then
    (Except.error ServiceError.invalidInput, fsInit, [])
  else
    match checkYtdlpAvailability env.installed env.probe with
    | (Except.error e, tr) => (Except.error e, fsInit, tr)
    | (Except.ok _, tr) =>
      match extractTiktokUsername url with
      | none => (Except.error ServiceError.usernameExtraction, fsInit, tr)
      | some uname =>
        match downloadAllProfileVideos env.bulkOutcome url
            { sessionDirExists := true, sessionFiles := [],
              zipWritten := false } with
        | (Except.error e, st2, tr2) => (Except.error e, st2, tr ++ tr2)
        | (Except.ok files, st2, tr2) =>
          if files.isEmpty then
            (Except.error ServiceError.noVideosDownloaded, st2, tr ++ tr2)
          else
            match env.zipOutcome with
            | ZipOutcome.err m =>
              (Except.error (ServiceError.zipError m), st2, tr ++ tr2)
            | ZipOutcome.ok size =>
              (Except.ok
                (("tiktok_profile_".toList) ++ uname ++ (".zip".toList),
                  size),
                { sessionDirExists := false, sessionFiles := [],
                  zipWritten := true },
                tr ++ tr2)

/-- Environment oracle for one selective batch request: one invocation
outcome per selected URL. -/
structure SelectiveEnv where
  installed : Bool
  probe : Option Bool
  outcomes : List InvokeOutcome
  zipOutcome : ZipOutcome
deriving Repr

/-- `TikTokService::download_selected_videos_as_zip`.  Guard order mirrors
the source: URL validity, empty selection, availability, username, session
directory creation, per-URL loop, empty-set check, zip build, cleanup on
success only. -/
def downloadSelectedVideosAsZip (env : SelectiveEnv) (url : List Char)
    (selectedUrls : List (List Char)) :
    Except ServiceError (List Char × Nat) × FsState × List Cmd :=
  if !isValidTiktokProfileUrl url then
    (Except.error ServiceError.invalidInput, fsInit, [])
  else if selectedUrls.isEmpty then
    (Except.error ServiceError.noVideosSelected, fsInit, [])
  else
    match checkYtdlpAvailability env.installed env.probe with
    | (Except.error e, tr) => (Except.error e, fsInit, tr)
    | (Except.ok _, tr) =>
      match extractTiktokUsername url with
      | none => (Except.error ServiceError.usernameExtraction, fsInit, tr)
      | some uname =>
        match downloadSelectedVideos (selectedUrls.zip env.outcomes)
            { sessionDirExists := true, sessionFiles := [],
              zipWritten := false } with
        | (Except.error e, st2, tr2) => (Except.error e, st2, tr ++ tr2)
        | (Except.ok files, st2, tr2) =>
          if files.isEmpty then
            (Except.error ServiceError.noVideosDownloaded, st2, tr ++ tr2)
          else
            match env.zipOutcome with
            | ZipOutcome.err m =>
              (Except.error (ServiceError.zipError m), st2, tr ++ tr2)
            | ZipOutcome.ok size =>
              (Except.ok
                (("tiktok_selected_".toList) ++ uname ++ ("_".toList)
                    ++ (toString files.length).toList
                    ++ ("_videos.zip".toList),
                  size),
                { sessionDirExists := false, sessionFiles := [],
                  zipWritten := true },
                tr ++ tr2)

/-! ## Single-item operations and profile metadata (tiktok_service.rs) -/

/-- `YtDlpVideoInfo`, restricted to the fields the embedded functions read
(`duration: Option<f64>` is modelled as whole seconds; the `formats`-based
`video_url` selection keys on an `f64` and is not modelled). -/
structure YtDlpVideoInfoM where
  id : String
  title : Option String
  description : Option String
  uploader_id : Option String
  duration : Option Nat
  view_count : Option Nat
  like_count : Option Nat
  comment_count : Option Nat
  thumbnail : Option String
  thumbnails : Option (List YtDlpThumbnail)
  upload_date : Option (List Char)
  formats : Option (List YtDlpFormat)
deriving Repr

/-- `VideoInfo` from `models/mod.rs` (without the `video_url` field, whose
selection keys on an unmodelled `f64`). -/
structure VideoInfoM where
  id : String
  title : String
  author : String
  description : String
  duration : Option Nat
  view_count : Option Nat
  like_count : Option Nat
  share_count : Option Nat
  comment_count : Option Nat
  thumbnail_url : Option String
  original_url : List Char
  available_formats : List FormatOption
  created_at : CreatedAt
deriving Repr

/-- `TikTokService::convert_ytdlp_to_video_info` (total: the only fallible
callee, `parse_available_formats`, never returns an error). -/
def convertYtdlpToVideoInfo (info : YtDlpVideoInfoM) (originalUrl : List Char) :
    VideoInfoM :=
  { id := info.id
    title := info.title.getD "Untitled"
    author := info.uploader_id.getD "unknown"
    description := info.description.getD ""
    duration := info.duration
    view_count := info.view_count
    like_count := info.like_count
    share_count := none
    comment_count := info.comment_count
    thumbnail_url := extractBestThumbnailUrl info.thumbnails info.thumbnail
    original_url := originalUrl
    available_formats := parseAvailableFormats info.formats
    created_at := parseCreatedAt info.upload_date }

/-- Outcome of `extract_video_metadata`'s one invocation plus JSON parse. -/
inductive MetaOutcome where
  | spawnErr (msg : String)
  | toolFailed (stderrMsg : String)
  | parseFailed (msg : String)
  | parsed (info : YtDlpVideoInfoM)
deriving Repr

/-- Environment oracle for the single-item operations. -/
structure SingleEnv where
  installed : Bool
  probe : Option Bool
  meta : MetaOutcome
  spawnOk : Bool
  stdoutCaptured : Bool
deriving Repr

/-- `TikTokService::extract_video_metadata`: one metadata-dump invocation. -/
def extractVideoMetadata (env : SingleEnv) (url : List Char) :
    Except ServiceError YtDlpVideoInfoM × List Cmd :=
  let tr := [Cmd.metadataDump url]
  match env.meta with
  | MetaOutcome.spawnErr m => (Except.error (ServiceError.ioError m), tr)
  | MetaOutcome.toolFailed m =>
    (Except.error (ServiceError.metadataFailed m), tr)
  | MetaOutcome.parseFailed m =>
    (Except.error (ServiceError.jsonParseFailed m), tr)
  | MetaOutcome.parsed info => (Except.ok info, tr)

/-- `TikTokService::get_video_info`: URL guard, availability probe, metadata
extraction, conversion. -/
def getVideoInfo (env : SingleEnv) (url : List Char) :
    Except ServiceError VideoInfoM × List Cmd :=
  if !isValidTiktokUrl url then (Except.error ServiceError.invalidInput, [])
  else
    match checkYtdlpAvailability env.installed env.probe with
    | (Except.error e, tr) => (Except.error e, tr)
    | (Except.ok _, tr) =>
      match extractVideoMetadata env url with
      | (Except.error e, tr2) => (Except.error e, tr ++ tr2)
      | (Except.ok info, tr2) =>
        (Except.ok (convertYtdlpToVideoInfo info url), tr ++ tr2)

/-- `TikTokService::stream_video`: URL guard, availability probe, a full
`get_video_info` round (which re-validates and re-probes), the format-id
whitelist check, filename generation from the atomic counter, then the
streaming spawn and the stdout capture.  The returned stream is opaque here;
the result carries the generated filename. -/
def streamVideo (env : SingleEnv) (url : List Char) (formatId : String)
    (counter : Nat) : Except ServiceError String × List Cmd :=
  if !isValidTiktokUrl url then (Except.error ServiceError.invalidInput, [])
  else
    match checkYtdlpAvailability env.installed env.probe with
    | (Except.error e, tr) => (Except.error e, tr)
    | (Except.ok _, tr) =>
      match getVideoInfo env url with
      | (Except.error e, tr2) => (Except.error e, tr ++ tr2)
      | (Except.ok info, tr2) =>
        if !(info.available_formats.any (fun f => f.format_id = formatId))
        then (Except.error (ServiceError.invalidFormat formatId), tr ++ tr2)
        else
          let filename := "topclipdowload" ++ toString counter ++ ".mp4"
          let tr3 := tr ++ tr2 ++ [Cmd.streamDownload formatId url]
          if !env.spawnOk then
            (Except.error (ServiceError.ioError "spawn"), tr3)
          else if !env.stdoutCaptured then
            (Except.error ServiceError.captureStdoutFailed, tr3)
          else (Except.ok filename, tr3)

/-- `TikTokService::stream_audio`: URL guard, availability probe, filename
generation, then the audio-extraction spawn and the stdout capture. -/
def streamAudio (env : SingleEnv) (url : List Char) (counter : Nat) :
    Except ServiceError String × List Cmd :=
  if !isValidTiktokUrl url then (Except.error ServiceError.invalidInput, [])
  else
    match checkYtdlpAvailability env.installed env.probe with
    | (Except.error e, tr) => (Except.error e, tr)
    | (Except.ok _, tr) =>
      let filename := "tiktok_audio_" ++ toString counter ++ ".mp3"
      let tr2 := tr ++ [Cmd.audioExtract url]
      if !env.spawnOk then (Except.error (ServiceError.ioError "spawn"), tr2)
      else if !env.stdoutCaptured then
        (Except.error ServiceError.captureStdoutFailed, tr2)
      else (Except.ok filename, tr2)

/-- `ProfileVideoInfo` from `models/mod.rs` (`duration: Option<f64>` as
whole seconds). -/
structure ProfileVideoM where
  url : String
  id : String
  title : String
  thumbnail_url : Option String
  duration : Option Nat
  view_count : Option Nat
  upload_date : Option (List Char)
deriving Repr

/-- Outcome of one profile-listing invocation; per-line JSON parsing (with
malformed lines skipped) happens upstream of this oracle, which hands over
the surviving entries. -/
inductive ListingOutcome where
  | spawnErr (msg : String)
  | toolFailed (stderrMsg : String)
  | entries (vs : List ProfileVideoM)
deriving Repr

/-- Environment oracle for `get_profile_info`. -/
structure ProfileEnv where
  installed : Bool
  probe : Option Bool
  flat : ListingOutcome
  alt : ListingOutcome
deriving Repr

/-- `TikTokService::get_profile_video_list_alternative`: one full-metadata
invocation capped at 50 entries; a tool failure returns the empty list, not
an error. -/
def getProfileVideoListAlternative (out : ListingOutcome) (url : List Char) :
    Except ServiceError (List ProfileVideoM) × List Cmd :=
  let tr := [Cmd.fullListing url]
  match out with
  | ListingOutcome.spawnErr m => (Except.error (ServiceError.ioError m), tr)
  | ListingOutcome.toolFailed _ => (Except.ok [], tr)
  | ListingOutcome.entries vs => (Except.ok (vs.take 50), tr)

/-- `TikTokService::get_profile_video_list`: the flat listing, falling back
to the alternative strategy when it yields zero entries. -/
def getProfileVideoList (env : ProfileEnv) (url : List Char) :
    Except ServiceError (List ProfileVideoM) × List Cmd :=
  let tr := [Cmd.flatListing url]
  match env.flat with
  | ListingOutcome.spawnErr m => (Except.error (ServiceError.ioError m), tr)
  | ListingOutcome.toolFailed m =>
    (Except.error (ServiceError.metadataFailed m), tr)
  | ListingOutcome.entries vs =>
    if vs.isEmpty then
      match getProfileVideoListAlternative env.alt url with
      | (r, tr2) => (r, tr ++ tr2)
    else (Except.ok vs, tr)

/-- `ProfileInfo` from `models/mod.rs`. -/
structure ProfileInfoM where
  username : List Char
  display_name : Option (List Char)
  video_count : Option Nat
  estimated_zip_size : Option Nat
  total_downloadable_videos : Nat
  videos : List ProfileVideoM
deriving Repr

/-- `TikTokService::get_profile_info`: profile-URL guard, availability,
username extraction, video list, then the summary with the fixed
5 MB-per-video size estimate. -/
def getProfileInfo (env : ProfileEnv) (url : List Char) :
    Except ServiceError ProfileInfoM × List Cmd :=
  if !isValidTiktokProfileUrl url then
    (Except.error ServiceError.invalidInput, [])
  else
    match checkYtdlpAvailability env.installed env.probe with
    | (Except.error e, tr) => (Except.error e, tr)
    | (Except.ok _, tr) =>
      match extractTiktokUsername url with
      | none => (Except.error ServiceError.usernameExtraction, tr)
      | some uname =>
        match getProfileVideoList env url with
        | (Except.error e, tr2) => (Except.error e, tr ++ tr2)
        | (Except.ok videos, tr2) =>
          let n := videos.length
          (Except.ok
            { username := uname
              display_name := some (('@' :: uname))
              video_count := some n
              estimated_zip_size := some (n * 5000000)
              total_downloadable_videos := n
              videos := videos }, tr ++ tr2)

/-- Files written into the session directory by one invocation outcome. -/
def producedOf (o : InvokeOutcome) : List (List Char) :=
  match o with
  | InvokeOutcome.exitZero p => p
  | _ => []


/-- Numeric value of an ASCII digit character. -/
def digitVal (c : Char) : Nat := c.toNat - 48

/-- Value of a two-digit string. -/
def val2 (a b : Char) : Nat := digitVal a * 10 + digitVal b

/-- Value of a four-digit string. -/
def val4 (a b c d : Char) : Nat :=
  ((digitVal a * 10 + digitVal b) * 10 + digitVal c) * 10 + digitVal d


/-- The single-video URL shape `https://www.tiktok.com/@<username>/video/<digits>`. -/
def mkVideoUrl (u d : List Char) : List Char :=
  ("https://www.tiktok.com/@".toList) ++ u ++ ("/video/".toList) ++ d


/-! ## Helper lemmas -/

/-- No branch of `poll_next` signals the child process. -/
theorem pollNextFx_no_kill (tw : Option Bool) (rd : ReadResult) :
    Effect.startKill ∉ (pollNextFx tw rd).2 := by
  unfold pollNextFx
  split
  · simp
  · cases rd with
    | ok data =>
      by_cases h : data.isEmpty <;> simp [h]
    | ioError e => simp
    | pending => simp

/-- `stripLit` inverts to an append decomposition. -/
theorem stripLit_eq {l s r : List Char} (h : stripLit l s = some r) :
    s = l ++ r := by
  induction l generalizing s with
  | nil => cases s <;> simpa [stripLit] using h
  | cons c cs ih =>
    cases s with
    | nil => simp [stripLit] at h
    | cons a as =>
      unfold stripLit at h
      by_cases hac : a = c
      · rw [if_pos hac] at h
        subst hac
        simpa using ih h
      · rw [if_neg hac] at h
        cases h

/-- `stripScheme` inverts to one of the two scheme literals. -/
theorem stripScheme_eq {s r : List Char} (h : stripScheme s = some r) :
    s = ("https://".toList) ++ r ∨ s = ("http://".toList) ++ r := by
  unfold stripScheme at h
  cases hs : stripLit ("https://".toList) s with
  | some x =>
    rw [hs] at h
    cases h
    exact Or.inl (stripLit_eq hs)
  | none =>
    rw [hs] at h
    exact Or.inr (stripLit_eq h)

/-- Any accepted profile URL splits as an at-free prefix, an `@`, and a
remainder accepted by the pattern tail. -/
theorem matchProfileWith_decomp {tail : List Char → Bool} {s : List Char}
    (h : matchProfileWith tail s = true) :
    ∃ P rest, s = P ++ ('@' :: rest) ∧ tail rest = true ∧ '@' ∉ P := by
  unfold matchProfileWith at h
  cases hs : stripScheme s with
  | none => rw [hs] at h; cases h
  | some r =>
    rw [hs] at h
    unfold matchOptWww at h
    have hcases := Bool.or_eq_true_iff.mp h
    have inner : ∃ pre mid, r = pre ++ mid ∧ '@' ∉ pre ∧
        (match stripLit ("tiktok.com/@".toList) mid with
         | some rest => tail rest
         | none => false) = true := by
      rcases hcases with h1 | h2
      · cases hw : stripLit ("www.".toList) r with
        | none => rw [hw] at h1; cases h1
        | some r2 =>
          rw [hw] at h1
          exact ⟨("www.".toList), r2, stripLit_eq hw, by decide, h1⟩
      · exact ⟨[], r, rfl, by simp, h2⟩
    obtain ⟨pre, mid, hr, hpre, hmid⟩ := inner
    cases ht : stripLit ("tiktok.com/@".toList) mid with
    | none => rw [ht] at hmid; cases hmid
    | some rest =>
      rw [ht] at hmid
      have hm : mid = ("tiktok.com/".toList) ++ ('@' :: rest) := by
        have := stripLit_eq ht
        simpa using this
      rcases stripScheme_eq hs with hsch | hsch <;>
        [refine ⟨("https://".toList) ++ pre ++ ("tiktok.com/".toList),
          rest, ?_, hmid, ?_⟩;
         refine ⟨("http://".toList) ++ pre ++ ("tiktok.com/".toList),
          rest, ?_, hmid, ?_⟩] <;>
      · first
        | (rw [hsch, hr, hm]; simp)
        | (simp only [List.mem_append]
           rintro ((hc | hc) | hc)
           · revert hc; decide
           · exact hpre hc
           · revert hc; decide)

/-- The capture scan skips any at-free prefix. -/
theorem findUsernameCapture_append {P : List Char} (s : List Char)
    (h : '@' ∉ P) : findUsernameCapture (P ++ s) = findUsernameCapture s := by
  induction P with
  | nil => rfl
  | cons c cs ih =>
    have hc : ¬(c = '@') := fun hc => h (hc ▸ List.mem_cons_self c cs)
    rw [List.cons_append]
    conv_lhs => unfold findUsernameCapture
    rw [if_neg hc]
    exact ih (fun hm => h (List.mem_cons_of_mem c hm))

/-- Elements of a `takeWhile` satisfy the predicate. -/
theorem mem_takeWhile_sat {p : Char → Bool} {l : List Char} {a : Char}
    (h : a ∈ l.takeWhile p) : p a = true := by
  induction l with
  | nil => cases h
  | cons c cs ih =>
    by_cases hc : p c = true
    · rw [List.takeWhile_cons_of_pos hc] at h
      rcases List.mem_cons.mp h with h1 | h1
      · exact h1 ▸ hc
      · exact ih h1
    · rw [List.takeWhile_cons_of_neg (by simpa using hc)] at h
      cases h

/-- Core of C9: a URL accepted by the profile validator always yields a
non-empty username over the `[A-Za-z0-9_.]` class. -/
theorem username_of_valid {s : List Char}
    (h : isValidTiktokProfileUrl s = true) :
    ∃ u, extractTiktokUsername s = some u ∧ u ≠ [] ∧
      ∀ c ∈ u, isClassChar c = true := by
  have hpat := (Bool.and_eq_true_iff.mp h).2
  have decomp : ∃ P rest, s = P ++ ('@' :: rest) ∧ '@' ∉ P ∧
      ∃ c t, rest = c :: t ∧ isClassChar c = true := by
    rcases Bool.or_eq_true_iff.mp hpat with h1 | h2
    · obtain ⟨P, rest, hs, htail, hP⟩ := matchProfileWith_decomp h1
      cases rest with
      | nil => cases htail
      | cons c t => exact ⟨P, c :: t, hs, hP, c, t, rfl, by simpa [profileTail1] using htail⟩
    · obtain ⟨P, rest, hs, htail, hP⟩ := matchProfileWith_decomp h2
      cases rest with
      | nil => simp [profileTail2] at htail
      | cons c t =>
        refine ⟨P, c :: t, hs, hP, c, t, rfl, ?_⟩
        have hall : isClassChar c = true ∧ ∀ x ∈ t, isClassChar x = true := by
          simpa [profileTail2] using htail
        exact hall.1
  obtain ⟨P, rest, hs, hP, c, t, hrest, hc⟩ := decomp
  subst hrest
  refine ⟨c :: t.takeWhile isClassChar, ?_, by simp, ?_⟩
  · unfold extractTiktokUsername
    rw [if_pos h, hs, findUsernameCapture_append _ hP]
    unfold findUsernameCapture
    rw [if_pos rfl]
    have htw : (c :: t).takeWhile isClassChar = c :: t.takeWhile isClassChar :=
      List.takeWhile_cons_of_pos hc
    simp only [htw, List.isEmpty_cons, if_neg]
    simp
  · intro x hx
    rcases List.mem_cons.mp hx with h1 | h1
    · exact h1 ▸ hc
    · exact mem_takeWhile_sat h1

/-- The availability check never reports a username-extraction failure. -/
theorem checkYtdlp_no_username_error {i : Bool} {p : Option Bool}
    {e : ServiceError} {tr : List Cmd}
    (h : checkYtdlpAvailability i p = (Except.error e, tr)) :
    e ≠ ServiceError.usernameExtraction := by
  unfold checkYtdlpAvailability at h
  split at h <;> [skip; split at h] <;> simp at h <;>
    (obtain ⟨rfl, -⟩ := h; simp)

/-- Profile-listing failures are never username-extraction failures. -/
theorem getProfileVideoList_no_username_error {penv : ProfileEnv}
    {url : List Char} {e : ServiceError} {tr : List Cmd}
    (h : getProfileVideoList penv url = (Except.error e, tr)) :
    e ≠ ServiceError.usernameExtraction := by
  obtain ⟨i, p, fl, al⟩ := penv
  unfold getProfileVideoList getProfileVideoListAlternative at h
  cases fl with
  | spawnErr m => simp at h; obtain ⟨rfl, -⟩ := h; simp
  | toolFailed m => simp at h; obtain ⟨rfl, -⟩ := h; simp
  | entries vs =>
    simp only at h
    by_cases hv : vs.isEmpty
    · simp only [hv, if_true] at h
      cases al with
      | spawnErr m2 => simp at h; obtain ⟨rfl, -⟩ := h; simp
      | toolFailed m2 => simp at h
      | entries vs2 => simp at h
    · simp [hv] at h

/-- The selective loop aborts only with IO errors (first projection). -/
theorem runSelectedLoop_fst_shape
    (pairs : List (List Char × InvokeOutcome)) (st : FsState) :
    (runSelectedLoop pairs st).1 = none
    ∨ ∃ m, (runSelectedLoop pairs st).1 = some (ServiceError.ioError m) := by
  induction pairs generalizing st with
  | nil => exact Or.inl rfl
  | cons p ps ih =>
    obtain ⟨u, o⟩ := p
    cases o with
    | spawnErr m => exact Or.inr ⟨m, rfl⟩
    | exitNonZero m =>
      have hfst : (runSelectedLoop ((u, InvokeOutcome.exitNonZero m) :: ps)
          st).1 = (runSelectedLoop ps st).1 := rfl
      rw [hfst]
      exact ih st
    | exitZero prod =>
      have hfst : (runSelectedLoop ((u, InvokeOutcome.exitZero prod) :: ps)
          st).1 = (runSelectedLoop ps
            { st with sessionFiles := st.sessionFiles ++ prod }).1 := rfl
      rw [hfst]
      exact ih _

/-- Bulk profile downloads fail only with IO or batch-download errors. -/
theorem downloadAllProfileVideos_error_shape {o : InvokeOutcome}
    {url : List Char} {st : FsState} {e : ServiceError} {st2 : FsState}
    {tr : List Cmd}
    (h : downloadAllProfileVideos o url st = (Except.error e, st2, tr)) :
    (∃ m, e = ServiceError.ioError m)
    ∨ ∃ m, e = ServiceError.batchDownloadFailed m := by
  unfold downloadAllProfileVideos at h
  cases o with
  | spawnErr m => simp at h; exact Or.inl ⟨m, h.1.symm⟩
  | exitNonZero m => simp at h; exact Or.inr ⟨m, h.1.symm⟩
  | exitZero produced => simp at h

/-- Selective downloads fail only with IO errors. -/
theorem downloadSelectedVideos_error_shape
    {pairs : List (List Char × InvokeOutcome)} {st : FsState}
    {e : ServiceError} {st1 : FsState} {tr : List Cmd}
    (h : downloadSelectedVideos pairs st = (Except.error e, st1, tr)) :
    ∃ m, e = ServiceError.ioError m := by
  have hs := runSelectedLoop_fst_shape pairs st
  unfold downloadSelectedVideos at h
  split at h
  · next r rest heq =>
    rw [heq] at hs
    simp at hs
    obtain ⟨m, hm⟩ := hs
    simp only [Prod.mk.injEq] at h
    obtain ⟨h1, -⟩ := h
    injection h1 with h1
    exact ⟨m, h1 ▸ hm⟩
  · simp only [Prod.mk.injEq] at h
    obtain ⟨h1, -⟩ := h
    cases h1

/-- The availability check fails only with dependency or probe errors. -/
theorem checkYtdlp_error_cases {i : Bool} {p : Option Bool}
    {e : ServiceError} {tr : List Cmd}
    (h : checkYtdlpAvailability i p = (Except.error e, tr)) :
    e = ServiceError.dependencyUnavailable ∨ e = ServiceError.ioError "probe" := by
  unfold checkYtdlpAvailability at h
  split at h <;> [skip; split at h] <;> simp at h <;>
    (obtain ⟨rfl, -⟩ := h) <;> simp

/-- The bulk download never changes whether the session directory exists. -/
theorem downloadAllProfileVideos_preserves_dir {o : InvokeOutcome}
    {url : List Char} {st : FsState}
    {r : Except ServiceError (List (List Char))} {st2 : FsState}
    {tr : List Cmd}
    (h : downloadAllProfileVideos o url st = (r, st2, tr)) :
    st2.sessionDirExists = st.sessionDirExists := by
  unfold downloadAllProfileVideos at h
  cases o <;> (simp only [Prod.mk.injEq] at h; obtain ⟨-, rfl, -⟩ := h) <;> rfl

/-- The selective loop never changes whether the session directory exists. -/
theorem runSelectedLoop_preserves_dir
    (pairs : List (List Char × InvokeOutcome)) (st : FsState) :
    ((runSelectedLoop pairs st).2.1).sessionDirExists = st.sessionDirExists := by
  induction pairs generalizing st with
  | nil => rfl
  | cons p ps ih =>
    obtain ⟨u, o⟩ := p
    cases o with
    | spawnErr m => rfl
    | exitNonZero m =>
      have he : ((runSelectedLoop ((u, InvokeOutcome.exitNonZero m) :: ps)
          st).2.1) = ((runSelectedLoop ps st).2.1) := rfl
      rw [he]
      exact ih st
    | exitZero prod =>
      have he : ((runSelectedLoop ((u, InvokeOutcome.exitZero prod) :: ps)
          st).2.1) = ((runSelectedLoop ps
            { st with sessionFiles := st.sessionFiles ++ prod }).2.1) := rfl
      rw [he]
      exact ih _

/-- The selective download never changes whether the session directory
exists. -/
theorem downloadSelectedVideos_preserves_dir
    {pairs : List (List Char × InvokeOutcome)} {st : FsState}
    {r : Except ServiceError (List (List Char))} {st2 : FsState}
    {tr : List Cmd}
    (h : downloadSelectedVideos pairs st = (r, st2, tr)) :
    st2.sessionDirExists = st.sessionDirExists := by
  have hp := runSelectedLoop_preserves_dir pairs st
  unfold downloadSelectedVideos at h
  split at h <;>
    (rename_i heq
     simp only [Prod.mk.injEq] at h
     obtain ⟨-, rfl, -⟩ := h
     rw [heq] at hp
     exact hp)

/-- Session-directory state of `download_profile_as_zip`, by result shape:
kept on every post-creation failure, removed only on success. -/
theorem downloadProfileAsZip_dir_spec (benv : BatchEnv) (url : List Char) :
    (((∃ m, (downloadProfileAsZip benv url).1 =
          Except.error (ServiceError.batchDownloadFailed m))
        ∨ (downloadProfileAsZip benv url).1 =
            Except.error ServiceError.noVideosDownloaded
        ∨ (∃ m, (downloadProfileAsZip benv url).1 =
            Except.error (ServiceError.zipError m))) →
      (downloadProfileAsZip benv url).2.1.sessionDirExists = true)
    ∧ (∀ z, (downloadProfileAsZip benv url).1 = Except.ok z →
      (downloadProfileAsZip benv url).2.1.sessionDirExists = false) := by
  obtain ⟨inst, prob, bulk, zipo⟩ := benv
  by_cases hv : isValidTiktokProfileUrl url
  case neg => simp [downloadProfileAsZip, hv]
  case pos =>
    cases hus : extractTiktokUsername url with
    | none =>
      cases inst <;> rcases prob with _ | b <;>
        simp [downloadProfileAsZip, checkYtdlpAvailability, hv, hus]
      cases b <;> simp
    | some uname =>
      cases inst with
      | false => simp [downloadProfileAsZip, checkYtdlpAvailability, hv, hus]
      | true =>
        rcases prob with _ | b
        · simp [downloadProfileAsZip, checkYtdlpAvailability, hv, hus]
        · cases b with
          | false =>
            simp [downloadProfileAsZip, checkYtdlpAvailability, hv, hus]
          | true =>
            cases bulk with
            | spawnErr m =>
              simp [downloadProfileAsZip, downloadAllProfileVideos,
                checkYtdlpAvailability, hv, hus]
            | exitNonZero m =>
              simp [downloadProfileAsZip, downloadAllProfileVideos,
                checkYtdlpAvailability, hv, hus]
            | exitZero produced =>
              by_cases hfe : (produced.filter allowedExt).isEmpty <;>
                cases zipo <;>
                simp [downloadProfileAsZip, downloadAllProfileVideos,
                  checkYtdlpAvailability, hv, hus, hfe]

/-- Session-directory state of `download_selected_videos_as_zip`, by result
shape: kept on every post-creation failure, removed only on success. -/
theorem downloadSelectedVideosAsZip_dir_spec (senv : SelectiveEnv)
    (url : List Char) (sel : List (List Char)) :
    (((downloadSelectedVideosAsZip senv url sel).1 =
          Except.error ServiceError.noVideosDownloaded
        ∨ (∃ m, (downloadSelectedVideosAsZip senv url sel).1 =
            Except.error (ServiceError.zipError m))) →
      (downloadSelectedVideosAsZip senv url sel).2.1.sessionDirExists = true)
    ∧ (∀ z, (downloadSelectedVideosAsZip senv url sel).1 = Except.ok z →
      (downloadSelectedVideosAsZip senv url sel).2.1.sessionDirExists =
        false) := by
  obtain ⟨inst, prob, outs, zipo⟩ := senv
  by_cases hv : isValidTiktokProfileUrl url
  case neg => simp [downloadSelectedVideosAsZip, hv]
  case pos =>
    by_cases hsel : sel.isEmpty
    case pos => simp [downloadSelectedVideosAsZip, hv, hsel]
    case neg =>
      cases hus : extractTiktokUsername url with
      | none =>
        cases inst <;> rcases prob with _ | b <;>
          simp [downloadSelectedVideosAsZip, checkYtdlpAvailability, hv,
            hsel, hus]
        cases b <;> simp
      | some uname =>
        cases inst with
        | false =>
          simp [downloadSelectedVideosAsZip, checkYtdlpAvailability, hv,
            hsel, hus]
        | true =>
          rcases prob with _ | b
          · simp [downloadSelectedVideosAsZip, checkYtdlpAvailability, hv,
              hsel, hus]
          · cases b with
            | false =>
              simp [downloadSelectedVideosAsZip, checkYtdlpAvailability, hv,
                hsel, hus]
            | true =>
              cases hds : downloadSelectedVideos (sel.zip outs)
                  { sessionDirExists := true, sessionFiles := [],
                    zipWritten := false } with
              | mk rd rest =>
                obtain ⟨st2, tr2⟩ := rest
                have hdir : st2.sessionDirExists = true :=
                  downloadSelectedVideos_preserves_dir hds
                cases rd with
                | error e =>
                  simp [downloadSelectedVideosAsZip, checkYtdlpAvailability,
                    hv, hsel, hus, hds, hdir]
                | ok files =>
                  by_cases hfe : files.isEmpty <;> cases zipo <;>
                    simp [downloadSelectedVideosAsZip,
                      checkYtdlpAvailability, hv, hsel, hus, hds, hfe, hdir]

/-- The selective loop with no spawn errors: completes, issues one command
per URL in order, and accumulates exactly the files of the successful
invocations (failed ones are skipped). -/
theorem runSelectedLoop_no_spawnErr
    (pairs : List (List Char × InvokeOutcome)) (st : FsState)
    (h : ∀ p ∈ pairs, ∀ m, p.2 ≠ InvokeOutcome.spawnErr m) :
    runSelectedLoop pairs st =
      (none,
       { st with sessionFiles :=
           st.sessionFiles ++ pairs.flatMap (fun p => producedOf p.2) },
       pairs.map (fun p => Cmd.videoDownload p.1)) := by
  induction pairs generalizing st with
  | nil => simp [runSelectedLoop]
  | cons p ps ih =>
    obtain ⟨u, o⟩ := p
    cases o with
    | spawnErr m =>
      exact absurd rfl
        (h (u, InvokeOutcome.spawnErr m) (List.mem_cons_self _ _) m)
    | exitNonZero m =>
      simp only [runSelectedLoop]
      rw [ih st (fun q hq => h q (List.mem_cons_of_mem _ hq))]
      simp [producedOf]
    | exitZero prod =>
      simp only [runSelectedLoop]
      rw [ih { st with sessionFiles := st.sessionFiles ++ prod }
        (fun q hq => h q (List.mem_cons_of_mem _ hq))]
      simp [producedOf]

/-- `download_selected_videos` with no spawn errors: full characterization of
result, state and command trace. -/
theorem downloadSelectedVideos_spec
    (pairs : List (List Char × InvokeOutcome)) (st : FsState)
    (h : ∀ p ∈ pairs, ∀ m, p.2 ≠ InvokeOutcome.spawnErr m) :
    downloadSelectedVideos pairs st =
      (Except.ok ((st.sessionFiles ++
          pairs.flatMap (fun p => producedOf p.2)).filter allowedExt),
       { st with sessionFiles :=
           st.sessionFiles ++ pairs.flatMap (fun p => producedOf p.2) },
       pairs.map (fun p => Cmd.videoDownload p.1)) := by
  unfold downloadSelectedVideos
  rw [runSelectedLoop_no_spawnErr pairs st h]

/-- Pair-projection form of `flatMap`. -/
theorem flatMap_snd_eq (l : List (List Char × InvokeOutcome)) :
    l.flatMap (fun p => producedOf p.2) =
      (l.map Prod.snd).flatMap producedOf := by
  induction l with
  | nil => rfl
  | cons a as ih => simp [ih]

/-- A digit character is not a sign character. -/
theorem digit_ne_plus {a : Char} (h : isDigitChar a = true) : ¬(a = '+') :=
  fun he => absurd (he ▸ h) (by decide)

/-- A digit character is not a minus sign. -/
theorem digit_ne_minus {a : Char} (h : isDigitChar a = true) : ¬(a = '-') :=
  fun he => absurd (he ▸ h) (by decide)

/-- The digit accumulator on two digit characters. -/
theorem parseDigitsAcc_two {a b : Char} (ha : isDigitChar a = true)
    (hb : isDigitChar b = true) :
    parseDigitsAcc [a, b] none = some (val2 a b) := by
  simp [parseDigitsAcc, ha, hb, val2, digitVal]

/-- The digit accumulator on four digit characters. -/
theorem parseDigitsAcc_four {a b c d : Char} (ha : isDigitChar a = true)
    (hb : isDigitChar b = true) (hc : isDigitChar c = true)
    (hd2 : isDigitChar d = true) :
    parseDigitsAcc [a, b, c, d] none = some (val4 a b c d) := by
  simp [parseDigitsAcc, ha, hb, hc, hd2, val4, digitVal]

/-- Zeta-reduced form of `parse_available_formats` on a present list. -/
theorem parseAvailableFormats_some (fs : List YtDlpFormat) :
    parseAvailableFormats (some fs) =
      (if ((dedupH (sortDescH (fs.filterMap fun f =>
          if keepFormat f then some (toFormatOption f) else none))).take
            5).isEmpty
       then [fallbackFormat]
       else (dedupH (sortDescH (fs.filterMap fun f =>
          if keepFormat f then some (toFormatOption f) else none))).take 5) :=
  rfl

/-- Membership in an insertion step. -/
theorem mem_insertDescH {y x : FormatOption} {l : List FormatOption}
    (h : y ∈ insertDescH x l) : y = x ∨ y ∈ l := by
  induction l with
  | nil => simpa [insertDescH] using h
  | cons z zs ih =>
    unfold insertDescH at h
    by_cases hc : hKey z ≤ hKey x
    · rw [if_pos hc] at h
      rcases List.mem_cons.mp h with h1 | h1
      · exact Or.inl h1
      · exact Or.inr h1
    · rw [if_neg hc] at h
      rcases List.mem_cons.mp h with h1 | h1
      · exact Or.inr (h1 ▸ List.mem_cons_self z zs)
      · rcases ih h1 with h2 | h2
        · exact Or.inl h2
        · exact Or.inr (List.mem_cons_of_mem z h2)

/-- Insertion preserves the descending pairwise order on the height key. -/
theorem pairwise_insertDescH {x : FormatOption} {l : List FormatOption}
    (h : List.Pairwise (fun a b => hKey b ≤ hKey a) l) :
    List.Pairwise (fun a b => hKey b ≤ hKey a) (insertDescH x l) := by
  induction l with
  | nil => simp [insertDescH]
  | cons z zs ih =>
    rcases List.pairwise_cons.mp h with ⟨hz, hzs⟩
    unfold insertDescH
    by_cases hc : hKey z ≤ hKey x
    · rw [if_pos hc]
      refine List.pairwise_cons.mpr ⟨?_, h⟩
      intro b hb
      rcases List.mem_cons.mp hb with h1 | h1
      · exact h1 ▸ hc
      · exact le_trans (hz b h1) hc
    · rw [if_neg hc]
      refine List.pairwise_cons.mpr ⟨?_, ih hzs⟩
      intro b hb
      rcases mem_insertDescH hb with h1 | h1
      · exact h1 ▸ le_of_lt (lt_of_not_le hc)
      · exact hz b h1

/-- The stable sort produces a descending pairwise order on the key. -/
theorem sortDescH_pairwise (l : List FormatOption) :
    List.Pairwise (fun a b => hKey b ≤ hKey a) (sortDescH l) := by
  induction l with
  | nil => simp [sortDescH]
  | cons x xs ih => exact pairwise_insertDescH ih

/-- Sorting adds no new elements. -/
theorem sortDescH_mem {y : FormatOption} {l : List FormatOption}
    (h : y ∈ sortDescH l) : y ∈ l := by
  induction l with
  | nil => simpa [sortDescH] using h
  | cons x xs ih =>
    rcases mem_insertDescH
        (show y ∈ insertDescH x (sortDescH xs) from h) with h1 | h1
    · exact h1 ▸ List.mem_cons_self x xs
    · exact List.mem_cons_of_mem x (ih h1)

/-- The dedup loop adds no new elements. -/
theorem dedupHGo_mem {y p : FormatOption} {l : List FormatOption}
    (h : y ∈ dedupHGo p l) : y ∈ l := by
  induction l generalizing p with
  | nil => simpa [dedupHGo] using h
  | cons z zs ih =>
    unfold dedupHGo at h
    by_cases hc : z.height = p.height
    · rw [if_pos hc] at h
      exact List.mem_cons_of_mem z (ih h)
    · rw [if_neg hc] at h
      rcases List.mem_cons.mp h with h1 | h1
      · exact h1 ▸ List.mem_cons_self z zs
      · exact List.mem_cons_of_mem z (ih h1)

/-- On a key-sorted list with all heights present, the dedup loop yields a
strictly descending key order. -/
theorem dedupHGo_strict {x : FormatOption} {xs : List FormatOption}
    (hp : List.Pairwise (fun a b => hKey b ≤ hKey a) (x :: xs))
    (hs : ∀ f ∈ x :: xs, f.height.isSome = true) :
    List.Pairwise (fun a b => hKey b < hKey a) (x :: dedupHGo x xs) := by
  induction xs generalizing x with
  | nil => simp [dedupHGo]
  | cons z zs ih =>
    rcases List.pairwise_cons.mp hp with ⟨hx, hzzs⟩
    unfold dedupHGo
    by_cases hc : z.height = x.height
    · rw [if_pos hc]
      apply ih
      · exact List.pairwise_cons.mpr
          ⟨fun b hb => hx b (List.mem_cons_of_mem z hb),
           (List.pairwise_cons.mp hzzs).2⟩
      · intro f hf
        rcases List.mem_cons.mp hf with h1 | h1
        · exact h1 ▸ hs x (List.mem_cons_self _ _)
        · exact hs f
            (List.mem_cons_of_mem x (List.mem_cons_of_mem z h1))
    · rw [if_neg hc]
      have hz_lt_x : hKey z < hKey x := by
        have hle : hKey z ≤ hKey x := hx z (List.mem_cons_self z zs)
        rcases lt_or_eq_of_le hle with h1 | h1
        · exact h1
        · exfalso
          obtain ⟨hz2, hhz⟩ := Option.isSome_iff_exists.mp
            (hs z (List.mem_cons_of_mem x (List.mem_cons_self z zs)))
          obtain ⟨hx2, hhx⟩ := Option.isSome_iff_exists.mp
            (hs x (List.mem_cons_self _ _))
          apply hc
          rw [hhz, hhx]
          have e1 : hKey z = hz2 := by simp [hKey, hhz]
          have e2 : hKey x = hx2 := by simp [hKey, hhx]
          have : hz2 = hx2 := by omega
          rw [this]
      have hih := ih hzzs
        (fun f hf => hs f (List.mem_cons_of_mem x hf))
      refine List.pairwise_cons.mpr ⟨?_, hih⟩
      intro b hb
      rcases List.mem_cons.mp hb with h1 | h1
      · exact h1 ▸ hz_lt_x
      · exact lt_trans ((List.pairwise_cons.mp hih).1 b h1) hz_lt_x

/-- Strict key order plus present heights gives pairwise distinct heights. -/
theorem pairwise_lt_to_ne {l : List FormatOption}
    (hp : List.Pairwise (fun a b => hKey b < hKey a) l)
    (hs : ∀ f ∈ l, f.height.isSome = true) :
    List.Pairwise (fun a b => a.height ≠ b.height) l := by
  refine List.Pairwise.imp_of_mem ?_ hp
  intro a b ha hb hlt
  obtain ⟨xa, hxa⟩ := Option.isSome_iff_exists.mp (hs a ha)
  obtain ⟨xb, hxb⟩ := Option.isSome_iff_exists.mp (hs b hb)
  have e1 : hKey a = xa := by simp [hKey, hxa]
  have e2 : hKey b = xb := by simp [hKey, hxb]
  rw [hxa, hxb]
  intro he
  injection he with he
  omega

/-- Every kept format option carries a present height of at least 240. -/
theorem kept_height_isSome (fs : List YtDlpFormat) {f : FormatOption}
    (h : f ∈ fs.filterMap fun g =>
      if keepFormat g then some (toFormatOption g) else none) :
    f.height.isSome = true := by
  rcases List.mem_filterMap.mp h with ⟨g, hg, hfg⟩
  by_cases hk : keepFormat g = true
  · rw [if_pos hk] at hfg
    injection hfg with hfg
    subst hfg
    have hsome : g.height.isSome = true := by
      unfold keepFormat at hk
      exact (Bool.and_eq_true_iff.mp
        ((Bool.and_eq_true_iff.mp
          ((Bool.and_eq_true_iff.mp hk).1)).1)).2
    simpa [toFormatOption] using hsome
  · rw [if_neg hk] at hfg
    cases hfg

/-- `find?` returns the unique element satisfying the predicate. -/
theorem find?_of_unique {α : Type} {p : α → Bool} {l : List α} {t : α}
    (hmem : t ∈ l) (hp : p t = true)
    (huniq : ∀ u ∈ l, p u = true → u = t) :
    l.find? p = some t := by
  induction l with
  | nil => cases hmem
  | cons a as ih =>
    by_cases ha : p a = true
    · have hat : a = t := huniq a (List.mem_cons_self a as) ha
      rw [List.find?_cons_of_pos _ ha, hat]
    · rw [List.find?_cons_of_neg _ (by simp [ha])]
      have hmem2 : t ∈ as := by
        rcases List.mem_cons.mp hmem with h | h
        · exact absurd (h ▸ hp) ha
        · exact h
      exact ih hmem2 (fun u hu hpu => huniq u (List.mem_cons_of_mem a hu) hpu)

/-! ## Claims -/

/-- C9: For every URL accepted by `is_valid_tiktok_profile_url`,
`extract_tiktok_username` returns `Some` of a non-empty username drawn from
the characters `[A-Za-z0-9_.]`; hence the "Failed to extract username" error
branch in the profile operations is unreachable for URLs that passed profile
validation. -/
theorem c9_profile_url_yields_username (s : List Char) (penv : ProfileEnv)
    (benv : BatchEnv) (senv : SelectiveEnv) (sel : List (List Char))
    (h : isValidTiktokProfileUrl s = true) :
    (∃ u, extractTiktokUsername s = some u ∧ u ≠ [] ∧
       ∀ c ∈ u, isClassChar c = true)
    ∧ (getProfileInfo penv s).1 ≠
        Except.error ServiceError.usernameExtraction
    ∧ (downloadProfileAsZip benv s).1 ≠
        Except.error ServiceError.usernameExtraction
    ∧ (downloadSelectedVideosAsZip senv s sel).1 ≠
        Except.error ServiceError.usernameExtraction := by
  obtain ⟨u, hu, hne, hcls⟩ := username_of_valid h
  refine ⟨⟨u, hu, hne, hcls⟩, ?_, ?_, ?_⟩
  · unfold getProfileInfo
    rw [h]
    simp only [Bool.not_true, Bool.false_eq_true, if_false]
    split
    · rename_i e tr heq
      intro hc
      simp only at hc
      injection hc with hc
      exact checkYtdlp_no_username_error heq hc
    · rw [hu]
      simp only
      split
      · rename_i e tr2 heq2
        intro hc
        simp only at hc
        injection hc with hc
        exact getProfileVideoList_no_username_error heq2 hc
      · simp
  · unfold downloadProfileAsZip
    rw [h]
    simp only [Bool.not_true, Bool.false_eq_true, if_false]
    split
    · rename_i e tr heq
      intro hc
      simp only at hc
      injection hc with hc
      exact checkYtdlp_no_username_error heq hc
    · rw [hu]
      simp only
      split
      · rename_i e st2 tr2 heq2
        rcases downloadAllProfileVideos_error_shape heq2 with
          ⟨m, rfl⟩ | ⟨m, rfl⟩ <;> simp
      · split <;> try simp
        split <;> simp
  · unfold downloadSelectedVideosAsZip
    rw [h]
    simp only [Bool.not_true, Bool.false_eq_true, if_false]
    by_cases hsel : sel.isEmpty
    · simp [hsel]
    · simp only [hsel, if_false, Bool.false_eq_true]
      split
      · rename_i e tr heq
        intro hc
        simp only at hc
        injection hc with hc
        exact checkYtdlp_no_username_error heq hc
      · rw [hu]
        simp only
        split
        · rename_i e st2 tr2 heq2
          obtain ⟨m, rfl⟩ := downloadSelectedVideos_error_shape heq2
          simp
        · split <;> try simp
          split <;> simp

/-- Witness for C9 at a concrete accepted profile URL. -/
theorem c9_witness :
    extractTiktokUsername ("https://www.tiktok.com/@user.name_1".toList) =
      some ("user.name_1".toList) := by
  have h := c9_profile_url_yields_username
    ("https://www.tiktok.com/@user.name_1".toList)
    { installed := true, probe := some true,
      flat := ListingOutcome.toolFailed "x",
      alt := ListingOutcome.toolFailed "x" }
    { installed := true, probe := some true,
      bulkOutcome := InvokeOutcome.exitNonZero "x",
      zipOutcome := ZipOutcome.ok 0 }
    { installed := true, probe := some true, outcomes := [],
      zipOutcome := ZipOutcome.ok 0 }
    [] (by decide)
  obtain ⟨⟨u, hu, -, -⟩, -, -, -⟩ := h
  rw [hu]
  have : u = "user.name_1".toList := by
    have := hu
    rw [show extractTiktokUsername
        ("https://www.tiktok.com/@user.name_1".toList) =
        some ("user.name_1".toList) from rfl] at this
    injection this with h2
    exact h2.symm
  rw [this]

/-- C5: For every selective batch with a non-empty URL list (and no
IO-level spawn failure, which would surface as a distinct `IoError`), one
external-tool invocation is issued per requested URL, in order; a URL whose
invocation exits non-zero is skipped without aborting the batch (only the
successful invocations' files are collected); and the batch as a whole fails
exactly when the collected file set is empty. -/
theorem c5_selective_batch_per_url_and_failure_policy
    (urls : List (List Char)) (outs : List InvokeOutcome) (url : List Char)
    (sz : Nat)
    (hlen : outs.length = urls.length)
    (hns : ∀ o ∈ outs, ∀ m, o ≠ InvokeOutcome.spawnErr m)
    (hv : isValidTiktokProfileUrl url = true)
    (hne : urls ≠ []) :
    (∀ st, (downloadSelectedVideos (urls.zip outs) st).2.2 =
      urls.map Cmd.videoDownload)
    ∧ (downloadSelectedVideos (urls.zip outs)
        { sessionDirExists := true, sessionFiles := [],
          zipWritten := false }).1 =
      Except.ok ((outs.flatMap producedOf).filter allowedExt)
    ∧ ((outs.flatMap producedOf).filter allowedExt = [] →
      (downloadSelectedVideosAsZip
        { installed := true, probe := some true, outcomes := outs,
          zipOutcome := ZipOutcome.ok sz } url urls).1 =
        Except.error ServiceError.noVideosDownloaded)
    ∧ ((outs.flatMap producedOf).filter allowedExt ≠ [] →
      ∃ nm, (downloadSelectedVideosAsZip
        { installed := true, probe := some true, outcomes := outs,
          zipOutcome := ZipOutcome.ok sz } url urls).1 =
        Except.ok (nm, sz)) := by
  have hzip_ns : ∀ p ∈ urls.zip outs, ∀ m,
      p.2 ≠ InvokeOutcome.spawnErr m := by
    intro p hp m
    obtain ⟨a, b⟩ := p
    exact hns b (List.of_mem_zip hp).2 m
  have hmapfst : (urls.zip outs).map (fun p => Cmd.videoDownload p.1) =
      urls.map Cmd.videoDownload := by
    have h1 : (urls.zip outs).map (fun p => Cmd.videoDownload p.1) =
        ((urls.zip outs).map Prod.fst).map Cmd.videoDownload := by
      rw [List.map_map]
      rfl
    rw [h1, List.map_fst_zip urls outs (le_of_eq hlen.symm)]
  have hflat : (urls.zip outs).flatMap (fun p => producedOf p.2) =
      outs.flatMap producedOf := by
    rw [flatMap_snd_eq, List.map_snd_zip urls outs (le_of_eq hlen)]
  have hie : urls.isEmpty = false := by
    cases urls
    · exact absurd rfl hne
    · rfl
  obtain ⟨uname, huname, -, -⟩ := username_of_valid hv
  refine ⟨?_, ?_, ?_, ?_⟩
  · intro st
    rw [downloadSelectedVideos_spec (urls.zip outs) st hzip_ns]
    exact hmapfst
  · rw [downloadSelectedVideos_spec _ _ hzip_ns]
    simp [hflat]
  · intro hempty
    unfold downloadSelectedVideosAsZip
    rw [hv]
    simp only [Bool.not_true, Bool.false_eq_true, if_false, hie]
    rw [show checkYtdlpAvailability true (some true)
      = (Except.ok (), [Cmd.versionProbe]) from rfl]
    rw [huname]
    simp only
    rw [downloadSelectedVideos_spec _ _ hzip_ns]
    simp [hflat, hempty]
  · intro hnem
    unfold downloadSelectedVideosAsZip
    rw [hv]
    simp only [Bool.not_true, Bool.false_eq_true, if_false, hie]
    rw [show checkYtdlpAvailability true (some true)
      = (Except.ok (), [Cmd.versionProbe]) from rfl]
    rw [huname]
    simp only
    rw [downloadSelectedVideos_spec _ _ hzip_ns]
    refine ⟨("tiktok_selected_".toList) ++ uname ++ ("_".toList)
      ++ (toString (((outs.flatMap producedOf).filter
        allowedExt)).length).toList ++ ("_videos.zip".toList), ?_⟩
    simp [hflat, hnem]

/-- Witness for C5: three URLs, the second invocation fails, the collected
set holds exactly the files of the first and third. -/
theorem c5_witness :
    (downloadSelectedVideos
      ([("u1".toList), ("u2".toList), ("u3".toList)].zip
        [InvokeOutcome.exitZero [("a.mp4".toList)],
         InvokeOutcome.exitNonZero "boom",
         InvokeOutcome.exitZero [("c.mp4".toList)]])
      { sessionDirExists := true, sessionFiles := [],
        zipWritten := false }).1 =
      Except.ok [("a.mp4".toList), ("c.mp4".toList)]
    ∧ (downloadSelectedVideos
      ([("u1".toList), ("u2".toList), ("u3".toList)].zip
        [InvokeOutcome.exitZero [("a.mp4".toList)],
         InvokeOutcome.exitNonZero "boom",
         InvokeOutcome.exitZero [("c.mp4".toList)]])
      { sessionDirExists := true, sessionFiles := [],
        zipWritten := false }).2.2 =
      [Cmd.videoDownload ("u1".toList), Cmd.videoDownload ("u2".toList),
       Cmd.videoDownload ("u3".toList)] := by
  have h := c5_selective_batch_per_url_and_failure_policy
    [("u1".toList), ("u2".toList), ("u3".toList)]
    [InvokeOutcome.exitZero [("a.mp4".toList)],
     InvokeOutcome.exitNonZero "boom",
     InvokeOutcome.exitZero [("c.mp4".toList)]]
    ("https://www.tiktok.com/@user".toList) 7 (by decide)
    (by intro o ho m; fin_cases ho <;> simp) (by decide) (by decide)
  constructor
  · rw [h.2.1]
    rfl
  · exact (h.1 _).trans rfl

/-- C3 counterexample: an ABSENT format list returns the empty list, not the
single synthetic fallback entry the claim requires. -/
theorem c3_counterexample :
    parseAvailableFormats none = []
    ∧ (parseAvailableFormats none).length ≠ 1 :=
  ⟨rfl, by decide⟩

/-- C3 amended: for every input, the returned list is sorted by descending
height, contains no two entries with equal height, and has length at most 5;
a PRESENT format list in which no entry qualifies yields exactly the one
synthetic "best available" fallback entry, but an ABSENT (`None`) list
returns the empty list without the fallback. -/
theorem c3_amended_format_list_invariants :
    (∀ fmts : Option (List YtDlpFormat),
      List.Pairwise (fun a b => hKey b ≤ hKey a) (parseAvailableFormats fmts)
      ∧ List.Pairwise (fun a b => a.height ≠ b.height)
          (parseAvailableFormats fmts)
      ∧ (parseAvailableFormats fmts).length ≤ 5)
    ∧ parseAvailableFormats none = []
    ∧ ∀ fs : List YtDlpFormat, (∀ f ∈ fs, keepFormat f = false) →
        parseAvailableFormats (some fs) = [fallbackFormat] := by
  refine ⟨?_, rfl, ?_⟩
  · intro fmts
    cases fmts with
    | none => refine ⟨?_, ?_, ?_⟩ <;> simp [parseAvailableFormats]
    | some fs =>
      rw [parseAvailableFormats_some]
      by_cases hie : ((dedupH (sortDescH (fs.filterMap fun f =>
          if keepFormat f then some (toFormatOption f) else none))).take
            5).isEmpty
      · rw [if_pos hie]
        refine ⟨?_, ?_, ?_⟩ <;> simp
      · rw [if_neg hie]
        cases hsort : sortDescH (fs.filterMap fun f =>
            if keepFormat f then some (toFormatOption f) else none) with
        | nil =>
          exfalso
          apply hie
          rw [hsort]
          rfl
        | cons x xs =>
          have hpw : List.Pairwise (fun a b => hKey b ≤ hKey a) (x :: xs) :=
            by rw [← hsort]; exact sortDescH_pairwise _
          have hsome : ∀ f ∈ x :: xs, f.height.isSome = true := by
            intro f hf
            apply kept_height_isSome fs
            apply sortDescH_mem
            rw [hsort]
            exact hf
          have hstrict := dedupHGo_strict hpw hsome
          have hded : dedupH (x :: xs) = x :: dedupHGo x xs := rfl
          rw [hded]
          have hsome2 : ∀ f ∈ (x :: dedupHGo x xs).take 5,
              f.height.isSome = true := by
            intro f hf
            have hf2 : f ∈ x :: dedupHGo x xs :=
              (List.take_sublist 5 _).mem hf
            rcases List.mem_cons.mp hf2 with h1 | h1
            · exact h1 ▸ hsome x (List.mem_cons_self _ _)
            · exact hsome f (List.mem_cons_of_mem x (dedupHGo_mem h1))
          have hstrict_take : List.Pairwise (fun a b => hKey b < hKey a)
              ((x :: dedupHGo x xs).take 5) :=
            List.Pairwise.sublist (List.take_sublist 5 _) hstrict
          refine ⟨?_, ?_, ?_⟩
          · exact hstrict_take.imp (fun hlt => le_of_lt hlt)
          · exact pairwise_lt_to_ne hstrict_take hsome2
          · rw [List.length_take]
            exact Nat.min_le_left _ _
  · intro fs hall
    have hkept : (fs.filterMap fun g =>
        if keepFormat g then some (toFormatOption g) else none) = [] := by
      induction fs with
      | nil => rfl
      | cons g gs ih =>
        have hg := hall g (List.mem_cons_self _ _)
        simp only [List.filterMap_cons, hg, if_false, Bool.false_eq_true]
        exact ih (fun f hf => hall f (List.mem_cons_of_mem _ hf))
    rw [parseAvailableFormats_some, hkept]
    rfl

/-- Witness for C3's amended theorem: a present list with one non-qualifying
entry yields exactly the fallback; a qualifying two-entry list obeys the
length bound. -/
theorem c3_witness :
    parseAvailableFormats
      (some [{ format_id := "f1", ext := "webm", height := some 1080,
               width := none, filesize := none, vcodec := none,
               format_note := none }]) = [fallbackFormat]
    ∧ List.length (parseAvailableFormats
      (some [{ format_id := "t1", ext := "mp4", height := some 1080,
               width := some 1920, filesize := some 5000000,
               vcodec := some "h264", format_note := some "high" },
             { format_id := "t2", ext := "mp4", height := some 720,
               width := some 1280, filesize := some 3000000,
               vcodec := some "h264", format_note := some "medium" }])) ≤
      5 :=
  ⟨c3_amended_format_list_invariants.2.2
      [{ format_id := "f1", ext := "webm", height := some 1080,
         width := none, filesize := none, vcodec := none,
         format_note := none }]
      (by decide),
   (c3_amended_format_list_invariants.1
      (some [{ format_id := "t1", ext := "mp4", height := some 1080,
               width := some 1920, filesize := some 5000000,
               vcodec := some "h264", format_note := some "high" },
             { format_id := "t2", ext := "mp4", height := some 720,
               width := some 1280, filesize := some 3000000,
               vcodec := some "h264", format_note := some "medium" }])).2.2⟩

/-- C7 counterexample: an 8-character upload date whose components are
unparseable does NOT fall back to the current time: the component defaults
2024/1/1 produce the fixed date 2024-01-01 instead. -/
theorem c7_counterexample :
    parseCreatedAt (some ("abcdefgh".toList)) = CreatedAt.date 2024 1 1
    ∧ parseCreatedAt (some ("abcdefgh".toList)) ≠ CreatedAt.now := by
  constructor
  · rfl
  · decide

/-- C7 amended: an upload date of exactly 8 digit characters denoting a
valid `YYYYMMDD` calendar date parses to that date (midnight UTC); an absent
date, or one whose length is not 8, falls back to the current time.  (For
8-character dates with unparseable components, the components default to
year 2024, month 1, day 1, and the current-time fallback fires only when the
resulting triple is not a valid date; date handling is total — it never
produces an error.) -/
theorem c7_amended_upload_date_contract :
    (∀ c1 c2 c3 c4 c5 c6 c7 c8 : Char,
      isDigitChar c1 = true → isDigitChar c2 = true →
      isDigitChar c3 = true → isDigitChar c4 = true →
      isDigitChar c5 = true → isDigitChar c6 = true →
      isDigitChar c7 = true → isDigitChar c8 = true →
      1 ≤ val2 c5 c6 → val2 c5 c6 ≤ 12 → 1 ≤ val2 c7 c8 →
      val2 c7 c8 ≤ daysInMonth ((val4 c1 c2 c3 c4 : Nat) : Int)
        (val2 c5 c6) →
      parseCreatedAt (some [c1, c2, c3, c4, c5, c6, c7, c8]) =
        CreatedAt.date ((val4 c1 c2 c3 c4 : Nat) : Int) (val2 c5 c6)
          (val2 c7 c8))
    ∧ (∀ s : List Char, s.length ≠ 8 →
        parseCreatedAt (some s) = CreatedAt.now)
    ∧ parseCreatedAt none = CreatedAt.now := by
  refine ⟨?_, ?_, rfl⟩
  · intro c1 c2 c3 c4 c5 c6 c7 c8 h1 h2 h3 h4 h5 h6 h7 h8 hm1 hm2 hd1 hdm
    simp only [parseCreatedAt]
    rw [if_pos (show ([c1, c2, c3, c4, c5, c6, c7, c8] : List Char).length
      = 8 from rfl)]
    have ht4 : ([c1, c2, c3, c4, c5, c6, c7, c8] : List Char).take 4 =
        [c1, c2, c3, c4] := rfl
    have ht2 : (([c1, c2, c3, c4, c5, c6, c7, c8] : List Char).drop 4).take 2
        = [c5, c6] := rfl
    have ht6 : ([c1, c2, c3, c4, c5, c6, c7, c8] : List Char).drop 6 =
        [c7, c8] := rfl
    rw [ht4, ht2, ht6]
    have hy : parseI32 [c1, c2, c3, c4] =
        some ((val4 c1 c2 c3 c4 : Nat) : Int) := by
      simp only [parseI32]
      rw [if_neg (digit_ne_plus h1), if_neg (digit_ne_minus h1),
        parseDigitsAcc_four h1 h2 h3 h4]
      rfl
    have hmo : parseU32 [c5, c6] = some (val2 c5 c6) := by
      simp only [parseU32]
      rw [if_neg (digit_ne_plus h5), parseDigitsAcc_two h5 h6]
    have hda : parseU32 [c7, c8] = some (val2 c7 c8) := by
      simp only [parseU32]
      rw [if_neg (digit_ne_plus h7), parseDigitsAcc_two h7 h8]
    rw [hy, hmo, hda]
    simp [fromYmdOpt, hm1, hm2, hd1, hdm]
  · intro s hs
    simp only [parseCreatedAt]
    rw [if_neg hs]

/-- Witness for C7 at concrete dates: a valid leap-day date parses exactly;
a 4-character date falls back to the current time. -/
theorem c7_witness :
    parseCreatedAt (some ("20240229".toList)) = CreatedAt.date 2024 2 29
    ∧ parseCreatedAt (some ("2024".toList)) = CreatedAt.now := by
  constructor
  · exact c7_amended_upload_date_contract.1 '2' '0' '2' '4' '0' '2' '2' '9'
      (by decide) (by decide) (by decide) (by decide) (by decide) (by decide)
      (by decide) (by decide) (by decide) (by decide) (by decide) (by decide)
  · exact c7_amended_upload_date_contract.2.1 ("2024".toList) (by decide)

/-- C2 counterexample: with a failing bulk invocation, the pipeline returns
`BatchDownloadFailed` while the session directory still exists — it is NOT
removed before the error is returned, contradicting the claim. -/
theorem c2_counterexample :
    (downloadProfileAsZip
      { installed := true, probe := some true,
        bulkOutcome := InvokeOutcome.exitNonZero "boom",
        zipOutcome := ZipOutcome.ok 5 }
      ("https://www.tiktok.com/@user".toList)).1
      = Except.error (ServiceError.batchDownloadFailed "boom")
    ∧ (downloadProfileAsZip
      { installed := true, probe := some true,
        bulkOutcome := InvokeOutcome.exitNonZero "boom",
        zipOutcome := ZipOutcome.ok 5 }
      ("https://www.tiktok.com/@user".toList)).2.1.sessionDirExists
      = true := by
  constructor <;> rfl

/-- C2 amended: if the batch pipeline fails after the session directory was
created — the bulk invocation exits non-zero (`BatchDownloadFailed`) or the
collected file set is empty (`NoVideosDownloaded`) — the session directory
is NOT removed before the operation returns its error — it still exists;
only the success path removes it (the directory persists until the
service's temporary root is dropped). -/
theorem c2_amended_session_dir_kept_on_failure (benv : BatchEnv)
    (senv : SelectiveEnv) (url : List Char) (sel : List (List Char)) :
    (∀ m, (downloadProfileAsZip benv url).1 =
        Except.error (ServiceError.batchDownloadFailed m) →
      (downloadProfileAsZip benv url).2.1.sessionDirExists = true)
    ∧ ((downloadProfileAsZip benv url).1 =
        Except.error ServiceError.noVideosDownloaded →
      (downloadProfileAsZip benv url).2.1.sessionDirExists = true)
    ∧ (∀ z, (downloadProfileAsZip benv url).1 = Except.ok z →
      (downloadProfileAsZip benv url).2.1.sessionDirExists = false)
    ∧ ((downloadSelectedVideosAsZip senv url sel).1 =
        Except.error ServiceError.noVideosDownloaded →
      (downloadSelectedVideosAsZip senv url sel).2.1.sessionDirExists = true)
    ∧ (∀ z, (downloadSelectedVideosAsZip senv url sel).1 = Except.ok z →
      (downloadSelectedVideosAsZip senv url sel).2.1.sessionDirExists =
        false) := by
  refine ⟨fun m hm => ?_, fun hm => ?_, fun z hz => ?_, fun hm => ?_,
    fun z hz => ?_⟩
  · exact (downloadProfileAsZip_dir_spec benv url).1 (Or.inl ⟨m, hm⟩)
  · exact (downloadProfileAsZip_dir_spec benv url).1 (Or.inr (Or.inl hm))
  · exact (downloadProfileAsZip_dir_spec benv url).2 z hz
  · exact (downloadSelectedVideosAsZip_dir_spec senv url sel).1 (Or.inl hm)
  · exact (downloadSelectedVideosAsZip_dir_spec senv url sel).2 z hz

/-- Witness for C2's amended theorem at a concrete failing environment. -/
theorem c2_witness :
    (downloadProfileAsZip
      { installed := true, probe := some true,
        bulkOutcome := InvokeOutcome.exitNonZero "oops",
        zipOutcome := ZipOutcome.ok 9 }
      ("https://www.tiktok.com/@abc".toList)).1
      = Except.error (ServiceError.batchDownloadFailed "oops")
    ∧ (downloadProfileAsZip
      { installed := true, probe := some true,
        bulkOutcome := InvokeOutcome.exitNonZero "oops",
        zipOutcome := ZipOutcome.ok 9 }
      ("https://www.tiktok.com/@abc".toList)).2.1.sessionDirExists = true :=
  ⟨rfl,
   (c2_amended_session_dir_kept_on_failure
      { installed := true, probe := some true,
        bulkOutcome := InvokeOutcome.exitNonZero "oops",
        zipOutcome := ZipOutcome.ok 9 }
      { installed := true, probe := some true, outcomes := [],
        zipOutcome := ZipOutcome.ok 0 }
      ("https://www.tiktok.com/@abc".toList) []).1 "oops" rfl⟩

/-- C10: For every single-video URL of the shape
`https://www.tiktok.com/@<username>/video/<digits>` that is accepted by
`is_valid_tiktok_url`, `is_valid_tiktok_profile_url` also returns true (its
patterns are not end-anchored), so the profile operations' URL validation
does not reject single-video URLs. -/
theorem c10_profile_validator_accepts_video_urls (u d : List Char)
    (hu : u ≠ []) (huc : ∀ c ∈ u, isClassChar c = true)
    (hd : d ≠ []) (hdc : ∀ c ∈ d, isDigitChar c = true)
    (hv : isValidTiktokUrl (mkVideoUrl u d) = true) :
    isValidTiktokProfileUrl (mkVideoUrl u d) = true := by
  obtain ⟨c, u2, rfl⟩ := List.exists_cons_of_ne_nil hu
  have hcc : isClassChar c = true := huc c (List.mem_cons_self c u2)
  unfold isValidTiktokUrl at hv
  have hurl : urlParseOk (mkVideoUrl (c :: u2) d) = true :=
    (Bool.and_eq_true_iff.mp hv).1
  unfold isValidTiktokProfileUrl
  rw [hurl]
  have hmatch : matchProfileWith profileTail1 (mkVideoUrl (c :: u2) d) =
      (isClassChar c || false) := rfl
  rw [Bool.true_and, Bool.or_eq_true_iff]
  exact Or.inl (by rw [hmatch, hcc]; rfl)

/-- Witness for C10 at a concrete single-video URL. -/
theorem c10_witness :
    isValidTiktokUrl (mkVideoUrl ("user".toList) ("123".toList)) = true
    ∧ isValidTiktokProfileUrl (mkVideoUrl ("user".toList) ("123".toList)) =
        true :=
  ⟨by decide,
   c10_profile_validator_accepts_video_urls ("user".toList) ("123".toList)
     (by decide) (by decide) (by decide) (by decide) (by decide)⟩


/-- C1: For every VideoStream (the Process Stream Adapter), on every exit
path — the consumer drains it to natural end-of-stream, the stream yields an
error, or the consumer abandons it mid-flight by dropping it — the backing
subprocess is signaled to terminate exactly once.  (Every exit path is a
finite sequence of polls followed by the one drop Rust ownership runs;
`poll_next` never signals the child; `Drop::drop` signals it exactly once,
whether or not the kill call itself errors.) -/
theorem c1_subprocess_signaled_exactly_once
    (polls : List (Option Bool × ReadResult)) (killErr : Bool) :
    (streamLifecycleFx polls killErr).count Effect.startKill = 1 := by
  unfold streamLifecycleFx
  rw [List.count_append]
  have hd : (dropFx killErr).count Effect.startKill = 1 := by
    cases killErr <;> rfl
  have hp : (polls.flatMap fun p => (pollNextFx p.1 p.2).2).count
      Effect.startKill = 0 := by
    induction polls with
    | nil => rfl
    | cons p ps ih =>
      rw [List.flatMap_cons, List.count_append, ih]
      simp [List.count_eq_zero.mpr (pollNextFx_no_kill p.1 p.2)]
  rw [hp, hd]

/-- C4: On every pull of a VideoStream, if the backing process has already
exited with a failure status, the stream yields an upstream-process error
immediately, regardless of what a pipe read would return (even buffered
bytes); a zero-byte read yields clean end-of-stream; and a pipe read error
is propagated to the consumer. -/
theorem c4_poll_failure_priority_eof_and_error_propagation :
    (∀ rd, pollNextFx (some false) rd =
      (PollOutcome.ready (some (StreamItem.err procFailMsg)), [Effect.logError]))
    ∧ (∀ tw, tw ≠ some false → pollNextFx tw (ReadResult.ok []) =
        (PollOutcome.ready none, [Effect.logInfo]))
    ∧ (∀ tw msg, tw ≠ some false → pollNextFx tw (ReadResult.ioError msg) =
        (PollOutcome.ready (some (StreamItem.err msg)), [Effect.logError])) := by
  refine ⟨fun rd => ?_, fun tw h => ?_, fun tw msg h => ?_⟩
  · unfold pollNextFx
    rw [if_pos rfl]
  · unfold pollNextFx
    rw [if_neg h]
    rfl
  · unfold pollNextFx
    rw [if_neg h]

/-- Witness for C4 at concrete inputs. -/
theorem c4_witness :
    pollNextFx (some false) (ReadResult.ok [1, 2]) =
      (PollOutcome.ready (some (StreamItem.err procFailMsg)), [Effect.logError])
    ∧ pollNextFx none (ReadResult.ok []) =
        (PollOutcome.ready none, [Effect.logInfo])
    ∧ pollNextFx none (ReadResult.ioError "broken pipe") =
        (PollOutcome.ready (some (StreamItem.err "broken pipe")),
          [Effect.logError]) :=
  ⟨c4_poll_failure_priority_eof_and_error_propagation.1 (ReadResult.ok [1, 2]),
   c4_poll_failure_priority_eof_and_error_propagation.2.1 none (by decide),
   c4_poll_failure_priority_eof_and_error_propagation.2.2 none "broken pipe"
     (by decide)⟩

/-- C8: For every non-empty thumbnail candidate array containing exactly one
entry whose identifier marks it as the cover image, thumbnail resolution
selects that entry's URL, regardless of its position in the array and of the
resolutions of the other entries. -/
theorem c8_unique_cover_thumbnail_selected (arr : List YtDlpThumbnail)
    (fb : Option String) (t : YtDlpThumbnail)
    (hmem : t ∈ arr) (hcov : isCoverThumb t = true)
    (huniq : ∀ u ∈ arr, isCoverThumb u = true → u = t) :
    extractBestThumbnailUrl (some arr) fb = some t.url := by
  have hne : arr.isEmpty = false := by
    cases arr
    · cases hmem
    · rfl
  have hfind : arr.find? isCoverThumb = some t :=
    find?_of_unique hmem hcov huniq
  unfold extractBestThumbnailUrl
  simp only [hne, Bool.not_false, if_true, hfind]

/-- Witness for C8: the cover entry sits last and has the SMALLER area of an
unrelated competitor, yet is selected. -/
theorem c8_witness :
    extractBestThumbnailUrl
      (some
        [{ id := some ("dynamic".toList),
           url := "https://example.com/dynamic.jpg",
           height := some 4000, width := some 4000 },
         { id := some ("cover_small".toList),
           url := "https://example.com/cover.jpg",
           height := some 10, width := some 10 }]) none
      = some "https://example.com/cover.jpg" :=
  c8_unique_cover_thumbnail_selected _ none
    { id := some ("cover_small".toList),
      url := "https://example.com/cover.jpg",
      height := some 10, width := some 10 }
    (List.mem_cons_of_mem _ (List.mem_cons_self _ _)) (by decide) (by decide)

/-- C6: For every malformed or off-platform URL (one the respective
validator rejects), every public operation returns an invalid-input error
with an empty spawn trace — no subprocess is spawned. -/
theorem c6_invalid_url_rejected_before_any_spawn (env : SingleEnv)
    (penv : ProfileEnv) (benv : BatchEnv) (senv : SelectiveEnv)
    (url : List Char) (fid : String) (counter : Nat)
    (sel : List (List Char)) :
    (isValidTiktokUrl url = false →
      getVideoInfo env url = (Except.error ServiceError.invalidInput, [])
      ∧ streamVideo env url fid counter =
          (Except.error ServiceError.invalidInput, [])
      ∧ streamAudio env url counter =
          (Except.error ServiceError.invalidInput, []))
    ∧ (isValidTiktokProfileUrl url = false →
      getProfileInfo penv url = (Except.error ServiceError.invalidInput, [])
      ∧ downloadProfileAsZip benv url =
          (Except.error ServiceError.invalidInput, fsInit, [])
      ∧ downloadSelectedVideosAsZip senv url sel =
          (Except.error ServiceError.invalidInput, fsInit, [])) := by
  constructor
  · intro h
    refine ⟨?_, ?_, ?_⟩ <;> simp [getVideoInfo, streamVideo, streamAudio, h]
  · intro h
    refine ⟨?_, ?_, ?_⟩ <;>
      simp [getProfileInfo, downloadProfileAsZip,
        downloadSelectedVideosAsZip, h]

/-- Witness for C6 at a concrete off-platform URL. -/
theorem c6_witness :
    getVideoInfo
      { installed := true, probe := some true,
        meta := MetaOutcome.toolFailed "x", spawnOk := true,
        stdoutCaptured := true }
      ("https://youtube.com/watch?v=123".toList)
      = (Except.error ServiceError.invalidInput, [])
    ∧ getProfileInfo
        { installed := true, probe := some true,
          flat := ListingOutcome.toolFailed "x",
          alt := ListingOutcome.toolFailed "x" }
        ("https://youtube.com/watch?v=123".toList)
        = (Except.error ServiceError.invalidInput, []) := by
  have h := c6_invalid_url_rejected_before_any_spawn
    { installed := true, probe := some true,
      meta := MetaOutcome.toolFailed "x", spawnOk := true,
      stdoutCaptured := true }
    { installed := true, probe := some true,
      flat := ListingOutcome.toolFailed "x",
      alt := ListingOutcome.toolFailed "x" }
    { installed := true, probe := some true,
      bulkOutcome := InvokeOutcome.exitNonZero "x",
      zipOutcome := ZipOutcome.ok 0 }
    { installed := true, probe := some true, outcomes := [],
      zipOutcome := ZipOutcome.ok 0 }
    ("https://youtube.com/watch?v=123".toList) "f1" 1 []
  exact ⟨(h.1 (by decide)).1, (h.2 (by decide)).1⟩

end TikTokDl
